import Mathlib

/-!
# Binance REST client (`Binance.go`)

A shallow embedding of the request-building and response-decoding code of
`Binance.go`, followed by theorems about it.

Conventions of the embedding:

* a Go `string` is a Lean `String`; where Go works on bytes (URL escaping,
  HMAC) the UTF-8 bytes of the string are used;
* a Go `int` / `int64` is an `Int` (no arithmetic that could overflow occurs
  in the embedded code);
* a Go `map` is an association list whose first binding of a key is the
  binding of the map;
* a Go `error` is identified with its message;
* a run-time panic (failed type assertion, slice or index out of range) is
  the result `none` of an `Option`;
* a `float64` is the rational number it denotes, or an infinity or NaN; no
  floating-point arithmetic occurs in the embedded code, values are only
  read, converted and stored;
* everything `Binance.go` imports but does not define (the `Utils` package,
  the HTTP transport, the clock and a few standard-library functions) is a
  field of the record `Env`; the helpers of `Utils` are taken to return;
* `range` over a map visits the bindings in the order of the association
  list.

The methods embedded are `buildPostForm`, `GetTicker`, `GetDepth`,
`placeOrder` with `LimitBuy`, `LimitSell`, `MarketBuy`, `MarketSell`,
`GetAccount`, `CancelOrder` and `GetUnfinishOrders`.
-/

namespace binance

/-! ## Strings and numbers of the Go runtime -/

/-- An `error` value, identified with its message (`errors.New msg`). -/
abbrev Error := String

/-- Big-endian decimal digits of `n`; `fuel` bounds the number of digits. -/
def decDigits : Nat → Nat → List Char
  | 0, _ => []
  | fuel + 1, n =>
    if n < 10 then [Nat.digitChar n]
    else decDigits fuel (n / 10) ++ [Nat.digitChar (n % 10)]

/-- Decimal rendering of a natural number. -/
def FormatNat (n : Nat) : String := String.mk (decDigits (n + 1) n)

/-- The call `strconv.FormatInt(i, 10)`, also what `%d` prints. -/
def FormatInt (i : Int) : String :=
  match i with
  | Int.ofNat n => FormatNat n
  | Int.negSucc n => String.mk ('-' :: decDigits (n + 2) (n + 1))

/-- UTF-8 bytes of one code point. -/
def utf8Char (c : Char) : List Nat :=
  let n := c.toNat
  if n < 128 then [n]
  else if n < 2048 then [192 + n / 64, 128 + n % 64]
  else if n < 65536 then [224 + n / 4096, 128 + n / 64 % 64, 128 + n % 64]
  else [240 + n / 262144, 128 + n / 4096 % 64, 128 + n / 64 % 64, 128 + n % 64]

/-- The bytes of a Go string. -/
def bytes (s : String) : List Nat := s.data.flatMap utf8Char

/-- The function `shouldEscape(c, encodeQueryComponent)` of `net/url`: only
letters, digits and `-`, `_`, `.`, `~` stay as they are. -/
def shouldEscape (b : Nat) : Bool :=
  !((97 ≤ b && b ≤ 122) || (65 ≤ b && b ≤ 90) || (48 ≤ b && b ≤ 57)
    || b == 45 || b == 95 || b == 46 || b == 126)

/-- One digit of `upperhex`. -/
def upperhex (n : Nat) : Char := Char.ofNat (if n < 10 then 48 + n else 55 + n)

/-- Escaping of one byte by `url.QueryEscape`. -/
def escapeByte (b : Nat) : List Char :=
  if b = 32 then ['+']
  else if shouldEscape b then ['%', upperhex (b / 16), upperhex (b % 16)]
  else [Char.ofNat b]

/-- The function `url.QueryEscape`. -/
def QueryEscape (s : String) : String := String.mk ((bytes s).flatMap escapeByte)

/-! ## Go maps -/

/-- Map lookup `m[key]` with the comma-ok flag: `none` when the key is absent. -/
def Map.get {κ β : Type} [DecidableEq κ] (m : List (κ × β)) (key : κ) : Option β :=
  match m with
  | [] => none
  | (k, b) :: rest => if k = key then some b else Map.get rest key

/-- The builtin `delete(m, key)`. -/
def Map.del {κ β : Type} [DecidableEq κ] (m : List (κ × β)) (key : κ) : List (κ × β) :=
  m.filter (fun kb => decide (kb.1 ≠ key))

/-- The assignment `m[key] = b`. -/
def Map.set {κ β : Type} [DecidableEq κ] (m : List (κ × β)) (key : κ) (b : β) : List (κ × β) :=
  (key, b) :: Map.del m key

/-- The keys of a map, each once. -/
def Map.keys {κ β : Type} [DecidableEq κ] (m : List (κ × β)) : List κ :=
  (m.map Prod.fst).dedup

/-- The bindings of a map, each key once, in the order of the list. -/
def Map.entries {κ β : Type} [DecidableEq κ] (m : List (κ × β)) : List (κ × β) :=
  (Map.keys m).filterMap (fun k => (Map.get m k).map (fun b => (k, b)))

/-! ## `url.Values` -/

/-- The type `url.Values`, a `map[string][]string`. -/
abbrev Values := List (String × List String)

/-- The method `Values.Set`: `v[key] = []string{value}`. -/
def Values.Set (v : Values) (key value : String) : Values := Map.set v key [value]

/-- The method `Values.Del`. -/
def Values.Del (v : Values) (key : String) : Values := Map.del v key

/-- Order of Go strings: lexicographic on code points, which for UTF-8 is the
bytewise order `slices.Sort` uses. -/
def keyLe (a b : String) : Prop := a.data ≤ b.data

instance : DecidableRel keyLe := fun a b => inferInstanceAs (Decidable (a.data ≤ b.data))

/-- The pairs `key=value` of one key, escaped. -/
def encodeKey (v : Values) (k : String) : List String :=
  ((Map.get v k).getD []).map (fun x => QueryEscape k ++ "=" ++ QueryEscape x)

/-- The method `Values.Encode`: keys sorted, every value of a key written as
`key=value`, the pairs joined by `&`. -/
def Values.Encode (v : Values) : String :=
  "&".intercalate (((Map.keys v).insertionSort keyLe).flatMap (encodeKey v))

/-- The slice expression `s[0:n]` on a string of one-byte characters; it
panics when `n` exceeds the length. -/
def sliceTo (s : String) (n : Nat) : Option String :=
  if n ≤ s.data.length then some (String.mk (s.data.take n)) else none

/-! ## Floating point and decoded JSON -/

/-- A `float64` value: a finite value is given by the rational number it
denotes; the sign of zero is not kept. -/
inductive Float64 where
  | finite (q : ℚ)
  | posInf
  | negInf
  | nan
  deriving DecidableEq

/-- The conversion `uint64(x)`: the fraction is discarded; for a value that
`uint64` cannot represent Go leaves the result to the implementation,
here `impl`. -/
def Float64.toUint64 (impl : Float64 → Nat) (x : Float64) : Nat :=
  match x with
  | Float64.finite q =>
    if -1 < q ∧ q < 18446744073709551616 then q.floor.toNat
    else impl x % 18446744073709551616
  | _ => impl x % 18446744073709551616

/-- What `json.Unmarshal` stores in an `interface{}`; `null` is also the
nil interface that indexing a map with an absent key gives. -/
inductive JSON where
  | null
  | bool (b : Bool)
  | num (x : Float64)
  | str (s : String)
  | arr (xs : List JSON)
  | obj (kvs : List (String × JSON))

/-- A `map[string]interface{}`. -/
abbrev JObj := List (String × JSON)

/-- The index expression `m[key]` without comma-ok: nil for an absent key. -/
def JObj.index (m : JObj) (key : String) : JSON := (Map.get m key).getD JSON.null

/-- The type assertion `x.(string)`; `none` when it fails. -/
def JSON.asString : JSON → Option String
  | JSON.str s => some s
  | _ => none

/-- The type assertion `x.(float64)`. -/
def JSON.asFloat64 : JSON → Option Float64
  | JSON.num x => some x
  | _ => none

/-- The type assertion `x.([]interface{})`. -/
def JSON.asSlice : JSON → Option (List JSON)
  | JSON.arr xs => some xs
  | _ => none

/-- The type assertion `x.(map[string]interface{})`. -/
def JSON.asMap : JSON → Option JObj
  | JSON.obj kvs => some kvs
  | _ => none

/-! ## The value types of the `Utils` package -/

/-- The constants `BUY` and `SELL` of type `TradeSide`. -/
inductive TradeSide where
  | BUY
  | SELL
  deriving DecidableEq

/-- The constants `ORDER_UNFINISH` and `ORDER_FINISH` of type `TradeStatus`. -/
inductive TradeStatus where
  | ORDER_UNFINISH
  | ORDER_FINISH
  deriving DecidableEq

/-- The struct `Ticker`. -/
structure Ticker where
  Date : Nat
  Last : Float64
  Buy : Float64
  Sell : Float64
  Low : Float64
  High : Float64
  Vol : Float64
  deriving DecidableEq

/-- The struct `DepthRecord`. -/
structure DepthRecord where
  Price : Float64
  Amount : Float64
  deriving DecidableEq

/-- The struct `Depth`. -/
structure Depth where
  AskList : List DepthRecord
  BidList : List DepthRecord
  deriving DecidableEq

/-- The struct `SubAccount`, with the fields `GetAccount` fills. -/
structure SubAccount (Currency : Type) where
  Currency : Currency
  Amount : Float64
  ForzenAmount : Float64
  deriving DecidableEq

/-- The struct `Account`, with the fields `GetAccount` fills. -/
structure Account (Currency : Type) where
  Exchange : String
  SubAccounts : List (Currency × SubAccount Currency)

/-- The struct `Order`, with the fields `Binance.go` fills. -/
structure Order (CurrencyPair : Type) where
  Currency : CurrencyPair
  OrderID : Int
  Price : Float64
  Amount : Float64
  DealAmount : Float64
  AvgPrice : Float64
  Side : TradeSide
  Status : TradeStatus
  OrderTime : Int
  deriving DecidableEq

/-! ## What `Binance.go` imports -/

/-- Everything the code calls without defining it: the helpers of `Utils`,
the HTTP transport behind `httpClient`, `json.Unmarshal`,
`strconv.ParseFloat`, the clock, and the implementation-defined part of
`uint64(x)`. -/
structure Env (CurrencyPair Currency : Type) where
  /-- The method `CurrencyPair.ToSymbol(joinChar)`. -/
  ToSymbol : CurrencyPair → String → String
  /-- The function `NewCurrency(symbol, desc)`. -/
  NewCurrency : String → String → Currency
  /-- The function `ToFloat64(v interface{}) float64`. -/
  ToFloat64 : JSON → Float64
  /-- The function `ToInt(v interface{}) int`. -/
  ToInt : JSON → Int
  /-- The function `GetParamHmacSHA256Sign(secret, params) (string, error)`. -/
  GetParamHmacSHA256Sign : String → String → String × Option Error
  /-- The function `HttpGet(client, url)`. -/
  HttpGet : String → Except Error JObj
  /-- The function `HttpGet2(client, url, params, headers)`. -/
  HttpGet2 : String → Values → List (String × String) → Except Error JObj
  /-- The function `HttpPostForm2(client, url, form, headers)`, giving the body. -/
  HttpPostForm2 : String → Values → List (String × String) → Except Error String
  /-- The function `HttpDeleteForm(client, url, form, headers)`, giving the body. -/
  HttpDeleteForm : String → Values → List (String × String) → Except Error String
  /-- The call `json.Unmarshal(body, &m)` on a fresh `map[string]interface{}`. -/
  Unmarshal : String → Except Error JObj
  /-- The function `strconv.ParseFloat(s, bitSize)`. -/
  ParseFloat : String → Nat → Float64 × Option Error
  /-- The reading `time.Now().UnixNano()` taken by `buildPostForm`. -/
  UnixNano : Int
  /-- The reading `time.Now().Unix()` taken by `placeOrder`. -/
  Unix : Int
  /-- The result of `uint64(x)` where the language leaves it open. -/
  uint64Impl : Float64 → Nat

/-! ## `Binance.go` -/

def EXCHANGE_NAME : String := "binance.com"
def API_BASE_URL : String := "https://www.binance.com/"
def API_V1 : String := API_BASE_URL ++ "api/v1/"
def API_V3 : String := API_BASE_URL ++ "api/v3/"
def ACCOUNT_URI : String := "account"
def PLACE_ORDER_API : String := "order"
def UNFINISHED_ORDERS_INFO : String := "openOrders"

/-- The format `TICKER_URI` applied to its argument. -/
def TICKER_URI (symbol : String) : String := "ticker/24hr?symbol=" ++ symbol

/-- The format `DEPTH_URI` applied to its arguments. -/
def DEPTH_URI (symbol : String) (limit : Int) : String :=
  "depth?symbol=" ++ symbol ++ "&limit=" ++ FormatInt limit

/-- The struct `Binance`; its `httpClient` is the transport of `Env`. -/
structure Binance where
  accessKey : String
  secretKey : String

/-- The function `New`. -/
def New (api_key secret_key : String) : Binance := { accessKey := api_key, secretKey := secret_key }

section Code

variable {CurrencyPair Currency : Type}

/-- The value of `tonce` in `buildPostForm`:
`strconv.FormatInt(time.Now().UnixNano(), 10)[0:13]`. -/
def tonce (unixNano : Int) : Option String := sliceTo (FormatInt unixNano) 13

/-- The string `payload` that `buildPostForm` signs. -/
def signedPayload (postForm : Values) (tonce : String) : String :=
  Values.Encode (Values.Set (Values.Set postForm "recvWindow" "6000000") "timestamp" tonce)

/-- The method `buildPostForm`; the result is the form after the call. -/
def buildPostForm (env : Env CurrencyPair Currency) (ba : Binance) (postForm : Values) :
    Option Values :=
  let postForm := Values.Set postForm "recvWindow" "6000000"
  match tonce env.UnixNano with
  | none => none
  | some tonce =>
    let postForm := Values.Set postForm "timestamp" tonce
    let payload := Values.Encode postForm
    let sign := (env.GetParamHmacSHA256Sign ba.secretKey payload).1
    some (Values.Set postForm "signature" sign)

/-- The method `GetExchangeName`. -/
def GetExchangeName : String := EXCHANGE_NAME

/-- The body of `GetTicker` after a successful `HttpGet`. -/
def tickerOfMap (env : Env CurrencyPair Currency) (tickerMap : JObj) : Option Ticker :=
  match (JObj.index tickerMap "closeTime").asFloat64 with
  | none => none
  | some closeTime =>
  match (JObj.index tickerMap "lastPrice").asString with
  | none => none
  | some lastPrice =>
  match (JObj.index tickerMap "bidPrice").asString with
  | none => none
  | some bidPrice =>
  match (JObj.index tickerMap "askPrice").asString with
  | none => none
  | some askPrice =>
  match (JObj.index tickerMap "lowPrice").asString with
  | none => none
  | some lowPrice =>
  match (JObj.index tickerMap "highPrice").asString with
  | none => none
  | some highPrice =>
  match (JObj.index tickerMap "volume").asString with
  | none => none
  | some volume =>
    some
      { Date := Float64.toUint64 env.uint64Impl closeTime
        Last := (env.ParseFloat lastPrice 10).1
        Buy := (env.ParseFloat bidPrice 10).1
        Sell := (env.ParseFloat askPrice 10).1
        Low := (env.ParseFloat lowPrice 10).1
        High := (env.ParseFloat highPrice 10).1
        Vol := (env.ParseFloat volume 10).1 }

/-- The method `GetTicker`: the pair `(*Ticker, error)`, or `none` for a panic. -/
def GetTicker (env : Env CurrencyPair Currency) (currency : CurrencyPair) :
    Option (Option Ticker × Option Error) :=
  let tickerUri := API_V1 ++ TICKER_URI (env.ToSymbol currency "")
  match env.HttpGet tickerUri with
  | Except.error err => some (none, some err)
  | Except.ok bodyDataMap =>
    match tickerOfMap env bodyDataMap with
    | none => none
    | some ticker => some (some ticker, none)

/-- The value of `size` after the first statement of `GetDepth`. -/
def depthLimit (size : Int) : Int :=
  if size > 100 then 100 else if size < 0 then 0 else size

/-- The value of `apiUrl` in `GetDepth`. -/
def depthUrl (env : Env CurrencyPair Currency) (size : Int) (currencyPair : CurrencyPair) :
    String :=
  API_V1 ++ DEPTH_URI (env.ToSymbol currencyPair "") (depthLimit size)

/-- One iteration of the loops of `GetDepth`: the record of one level. -/
def depthRecord (env : Env CurrencyPair Currency) (level : JSON) : Option DepthRecord :=
  match level.asSlice with
  | none => none
  | some lv =>
    match lv[1]? with
    | none => none
    | some a =>
      let amount := env.ToFloat64 a
      match lv[0]? with
      | none => none
      | some p =>
        let price := env.ToFloat64 p
        some { Amount := amount, Price := price }

/-- A loop of `GetDepth`: the records of all levels, in order. -/
def depthRecords (env : Env CurrencyPair Currency) : List JSON → Option (List DepthRecord)
  | [] => some []
  | level :: rest =>
    match depthRecord env level with
    | none => none
    | some dr =>
      match depthRecords env rest with
      | none => none
      | some drs => some (dr :: drs)

/-- The body of `GetDepth` after a successful `HttpGet`. -/
def depthOfResp (env : Env CurrencyPair Currency) (resp : JObj) :
    Option (Option Depth × Option Error) :=
  if (Map.get resp "code").isSome then
    match (JObj.index resp "msg").asString with
    | none => none
    | some msg => some (none, some msg)
  else
    match (JObj.index resp "bids").asSlice with
    | none => none
    | some bids =>
    match (JObj.index resp "asks").asSlice with
    | none => none
    | some asks =>
    match depthRecords env bids with
    | none => none
    | some bidList =>
    match depthRecords env asks with
    | none => none
    | some askList => some (some { AskList := askList, BidList := bidList }, none)

/-- The method `GetDepth`. -/
def GetDepth (env : Env CurrencyPair Currency) (size : Int) (currencyPair : CurrencyPair) :
    Option (Option Depth × Option Error) :=
  match env.HttpGet (depthUrl env size currencyPair) with
  | Except.error err => some (none, some err)
  | Except.ok resp => depthOfResp env resp

/-- The form `params` of `placeOrder` at the call of `buildPostForm`. -/
def placeOrderParams (env : Env CurrencyPair Currency) (amount price : String)
    (pair : CurrencyPair) (orderType orderSide : String) : Values :=
  let params : Values := []
  let params := Values.Set params "symbol" (env.ToSymbol pair "")
  let params := Values.Set params "side" orderSide
  let params := Values.Set params "type" orderType
  let params := Values.Set params "quantity" amount
  let params := Values.Set params "type" "LIMIT"
  let params := Values.Set params "timeInForce" "GTC"
  if orderType = "LIMIT" then Values.Set params "price" price else params

/-- The method `placeOrder`. -/
def placeOrder (env : Env CurrencyPair Currency) (ba : Binance) (amount price : String)
    (pair : CurrencyPair) (orderType orderSide : String) :
    Option (Option (Order CurrencyPair) × Option Error) :=
  let path := API_V3 ++ PLACE_ORDER_API
  match buildPostForm env ba (placeOrderParams env amount price pair orderType orderSide) with
  | none => none
  | some params =>
    match env.HttpPostForm2 path params [("X-MBX-APIKEY", ba.accessKey)] with
    | Except.error err => some (none, some err)
    | Except.ok resp =>
      match env.Unmarshal resp with
      | Except.error err => some (none, some err)
      | Except.ok respmap =>
        match (JObj.index respmap "orderId").asString with
        | none => some (none, some resp)
        | some orderId =>
          let side := if orderSide = "SELL" then TradeSide.SELL else TradeSide.BUY
          some (some
            { Currency := pair
              OrderID := env.ToInt (JSON.str orderId)
              Price := env.ToFloat64 (JSON.str price)
              Amount := env.ToFloat64 (JSON.str amount)
              DealAmount := Float64.finite 0
              AvgPrice := Float64.finite 0
              Side := side
              Status := TradeStatus.ORDER_UNFINISH
              OrderTime := env.Unix }, none)

/-- One iteration of the loop of `GetAccount`. -/
def accountStep [DecidableEq Currency] (env : Env CurrencyPair Currency)
    (subAccounts : List (Currency × SubAccount Currency)) (v : JSON) :
    Option (List (Currency × SubAccount Currency)) :=
  match v.asMap with
  | none => none
  | some vv =>
    match (JObj.index vv "asset").asString with
    | none => none
    | some asset =>
      let currency := env.NewCurrency asset ""
      some (Map.set subAccounts currency
        { Currency := currency
          Amount := env.ToFloat64 (JObj.index vv "free")
          ForzenAmount := env.ToFloat64 (JObj.index vv "locked") })

/-- The loop of `GetAccount` over `balances`. -/
def accountLoop [DecidableEq Currency] (env : Env CurrencyPair Currency) :
    List (Currency × SubAccount Currency) → List JSON →
    Option (List (Currency × SubAccount Currency))
  | subAccounts, [] => some subAccounts
  | subAccounts, v :: rest =>
    match accountStep env subAccounts v with
    | none => none
    | some subAccounts => accountLoop env subAccounts rest

/-- The body of `GetAccount` after a successful `HttpGet2`. -/
def accountOfResp [DecidableEq Currency] (env : Env CurrencyPair Currency) (respmap : JObj) :
    Option (Account Currency) :=
  match (JObj.index respmap "balances").asSlice with
  | none => none
  | some balances =>
    match accountLoop env [] balances with
    | none => none
    | some subAccounts => some { Exchange := GetExchangeName, SubAccounts := subAccounts }

/-- The method `GetAccount`. -/
def GetAccount [DecidableEq Currency] (env : Env CurrencyPair Currency) (ba : Binance) :
    Option (Option (Account Currency) × Option Error) :=
  let path := API_V3 ++ ACCOUNT_URI
  match buildPostForm env ba [] with
  | none => none
  | some params =>
    match env.HttpGet2 path params [("X-MBX-APIKEY", ba.accessKey)] with
    | Except.error err => some (none, some err)
    | Except.ok respmap =>
      match accountOfResp env respmap with
      | none => none
      | some acc => some (some acc, none)

/-- The method `LimitBuy`. -/
def LimitBuy (env : Env CurrencyPair Currency) (ba : Binance) (amount price : String)
    (currencyPair : CurrencyPair) : Option (Option (Order CurrencyPair) × Option Error) :=
  placeOrder env ba amount price currencyPair "LIMIT" "BUY"

/-- The method `LimitSell`. -/
def LimitSell (env : Env CurrencyPair Currency) (ba : Binance) (amount price : String)
    (currencyPair : CurrencyPair) : Option (Option (Order CurrencyPair) × Option Error) :=
  placeOrder env ba amount price currencyPair "LIMIT" "SELL"

/-- The method `MarketBuy`. -/
def MarketBuy (env : Env CurrencyPair Currency) (ba : Binance) (amount price : String)
    (currencyPair : CurrencyPair) : Option (Option (Order CurrencyPair) × Option Error) :=
  placeOrder env ba amount price currencyPair "MARKET" "BUY"

/-- The method `MarketSell`. -/
def MarketSell (env : Env CurrencyPair Currency) (ba : Binance) (amount price : String)
    (currencyPair : CurrencyPair) : Option (Option (Order CurrencyPair) × Option Error) :=
  placeOrder env ba amount price currencyPair "MARKET" "SELL"

/-- The form `params` of `CancelOrder` at the call of `buildPostForm`. -/
def cancelOrderParams (env : Env CurrencyPair Currency) (orderId : String)
    (currencyPair : CurrencyPair) : Values :=
  Values.Set (Values.Set [] "symbol" (env.ToSymbol currencyPair "")) "orderId" orderId

/-- The end of `CancelOrder`, from the decoded response `respmap` of body `resp`. -/
def cancelOfResp (orderId resp : String) (respmap : JObj) : Bool × Option Error :=
  match (JObj.index respmap "orderId").asString with
  | none => (false, some resp)
  | some orderIdCanceled =>
    if orderIdCanceled ≠ orderId then (false, some "orderId doesn't match")
    else (true, none)

/-- The method `CancelOrder`. -/
def CancelOrder (env : Env CurrencyPair Currency) (ba : Binance) (orderId : String)
    (currencyPair : CurrencyPair) : Option (Bool × Option Error) :=
  let path := API_V3 ++ PLACE_ORDER_API
  match buildPostForm env ba (cancelOrderParams env orderId currencyPair) with
  | none => none
  | some params =>
    match env.HttpDeleteForm path params [("X-MBX-APIKEY", ba.accessKey)] with
    | Except.error err => some (false, some err)
    | Except.ok resp =>
      match env.Unmarshal resp with
      | Except.error err => some (false, some err)
      | Except.ok respmap => some (cancelOfResp orderId resp respmap)

/-- One iteration of the loop of `GetUnfinishOrders`. -/
def unfinishOrder (env : Env CurrencyPair Currency) (currencyPair : CurrencyPair) (v : JSON) :
    Option (Order CurrencyPair) :=
  match v.asMap with
  | none => none
  | some ord =>
    match (JObj.index ord "type").asString with
    | none => none
    | some side =>
      let orderSide := if side = "BUY" then TradeSide.BUY else TradeSide.SELL
      some
        { OrderID := env.ToInt (JObj.index ord "orderId")
          Currency := currencyPair
          Price := env.ToFloat64 (JObj.index ord "price")
          Amount := env.ToFloat64 (JObj.index ord "origQty")
          DealAmount := Float64.finite 0
          AvgPrice := Float64.finite 0
          Side := orderSide
          Status := TradeStatus.ORDER_UNFINISH
          OrderTime := env.ToInt (JObj.index ord "time") }

/-- The loop of `GetUnfinishOrders` over the entries of the map, in the order
in which `range` visits them. -/
def unfinishOrders (env : Env CurrencyPair Currency) (currencyPair : CurrencyPair) :
    List (String × JSON) → Option (List (Order CurrencyPair))
  | [] => some []
  | (_, v) :: rest =>
    match unfinishOrder env currencyPair v with
    | none => none
    | some ord =>
      match unfinishOrders env currencyPair rest with
      | none => none
      | some orders => some (ord :: orders)

/-- The form `params` of `GetUnfinishOrders` at the call of `buildPostForm`. -/
def unfinishOrdersParams (env : Env CurrencyPair Currency) (currencyPair : CurrencyPair) :
    Values :=
  Values.Set [] "symbol" (env.ToSymbol currencyPair "")

/-- The method `GetUnfinishOrders`; a nil slice is the empty list, and the
order of `Map.entries` stands for the order `range` picks. -/
def GetUnfinishOrders (env : Env CurrencyPair Currency) (ba : Binance)
    (currencyPair : CurrencyPair) : Option (List (Order CurrencyPair) × Option Error) :=
  let path := API_V3 ++ UNFINISHED_ORDERS_INFO
  match buildPostForm env ba (unfinishOrdersParams env currencyPair) with
  | none => none
  | some params =>
    match env.HttpGet2 path params [("X-MBX-APIKEY", ba.accessKey)] with
    | Except.error err => some ([], some err)
    | Except.ok respmap =>
      match unfinishOrders env currencyPair (Map.entries respmap) with
      | none => none
      | some orders => some (orders, none)

end Code

/-! ## HMAC-SHA256

`GetParamHmacSHA256Sign` belongs to `Utils`; the theorems below take it from
`Env`. The definitions of this section give the function the name describes,
for concrete runs of the code. -/

namespace Sha256

/-- The largest `r` below `2 ^ bits` above `acc` with `r ^ k ≤ n`, found bit by
bit: with `acc = 0` the integer `k`-th root of `n`. -/
def rootSearch (k n : Nat) : Nat → Nat → Nat
  | 0, acc => acc
  | bits + 1, acc =>
    if (acc + 2 ^ bits) ^ k ≤ n then rootSearch k n bits (acc + 2 ^ bits)
    else rootSearch k n bits acc

/-- The first 64 primes. -/
def primes : List Nat :=
  [2, 3, 5, 7, 11, 13, 17, 19, 23, 29, 31, 37, 41, 43, 47, 53, 59, 61, 67, 71, 73, 79, 83, 89, 97,
   101, 103, 107, 109, 113, 127, 131, 137, 139, 149, 151, 157, 163, 167, 173, 179, 181, 191, 193,
   197, 199, 211, 223, 227, 229, 233, 239, 241, 251, 257, 263, 269, 271, 277, 281, 283, 293, 307,
   311]

/-- The round constants of SHA-256: the first 32 bits of the fractional parts
of the cube roots of the first 64 primes. -/
def K : List Nat := primes.map (fun p => rootSearch 3 (p * 2 ^ 96) 36 0 % 4294967296)

/-- The initial hash value of SHA-256: the first 32 bits of the fractional
parts of the square roots of the first 8 primes. -/
def H0 : List Nat := (primes.take 8).map (fun p => rootSearch 2 (p * 2 ^ 64) 36 0 % 4294967296)

/-- Rotation of a 32-bit word to the right. -/
def rotr (x n : Nat) : Nat := ((x >>> n) ||| (x <<< (32 - n))) % 4294967296

def smallSigma0 (x : Nat) : Nat := rotr x 7 ^^^ rotr x 18 ^^^ (x >>> 3)
def smallSigma1 (x : Nat) : Nat := rotr x 17 ^^^ rotr x 19 ^^^ (x >>> 10)
def bigSigma0 (x : Nat) : Nat := rotr x 2 ^^^ rotr x 13 ^^^ rotr x 22
def bigSigma1 (x : Nat) : Nat := rotr x 6 ^^^ rotr x 11 ^^^ rotr x 25

/-- Extension of the message schedule by `n` words; the schedule is kept
newest word first. -/
def extend : Nat → List Nat → List Nat
  | 0, w => w
  | n + 1, w =>
    match w with
    | _ :: w2 :: _ :: _ :: _ :: _ :: w7 :: _ :: _ :: _ :: _ :: _ :: _ :: _ :: w15 :: w16 :: _ =>
      extend n (((smallSigma1 w2 + w7 + smallSigma0 w15 + w16) % 4294967296) :: w)
    | _ => w

/-- One round of the compression function on the working variables. -/
def round (st : List Nat) (kw : Nat × Nat) : List Nat :=
  match st with
  | [a, b, c, d, e, f, g, h] =>
    let ch := (e &&& f) ^^^ ((4294967295 - e) &&& g)
    let maj := (a &&& b) ^^^ (a &&& c) ^^^ (b &&& c)
    let t1 := (h + bigSigma1 e + ch + kw.1 + kw.2) % 4294967296
    let t2 := (bigSigma0 a + maj) % 4294967296
    [(t1 + t2) % 4294967296, a, b, c, (d + t1) % 4294967296, e, f, g]
  | _ => st

/-- Big-endian 32-bit words of a byte sequence. -/
def words : List Nat → List Nat
  | a :: b :: c :: d :: rest => (a * 16777216 + b * 65536 + c * 256 + d) :: words rest
  | _ => []

/-- The compression function on one 64-byte block. -/
def compress (h : List Nat) (block : List Nat) : List Nat :=
  let w := (extend 48 (words block).reverse).reverse
  let r := (K.zip w).foldl round h
  List.zipWith (fun x y => (x + y) % 4294967296) h r

/-- The `k` low bytes of `n`, big-endian. -/
def bigEndian (n : Nat) : Nat → List Nat
  | 0 => []
  | k + 1 => (n >>> (8 * k)) % 256 :: bigEndian n k

/-- Padding of a message to a multiple of 64 bytes. -/
def pad (msg : List Nat) : List Nat :=
  msg ++ [128] ++ List.replicate ((119 - msg.length % 64) % 64) 0 ++ bigEndian (8 * msg.length) 8

/-- The first `n` blocks of 64 bytes. -/
def blocks : Nat → List Nat → List (List Nat)
  | 0, _ => []
  | n + 1, l => l.take 64 :: blocks n (l.drop 64)

/-- SHA-256 of a byte sequence, as 32 bytes. -/
def sum (msg : List Nat) : List Nat :=
  ((blocks ((pad msg).length / 64) (pad msg)).foldl compress H0).flatMap (fun w => bigEndian w 4)

/-- HMAC with SHA-256. -/
def hmac (key msg : List Nat) : List Nat :=
  let k := if key.length > 64 then sum key else key
  let k := k ++ List.replicate (64 - k.length) 0
  sum (k.map (fun b => b ^^^ 0x5c) ++ sum (k.map (fun b => b ^^^ 0x36) ++ msg))

/-- One lowercase hexadecimal digit. -/
def hexDigit (n : Nat) : Char := Char.ofNat (if n < 10 then 48 + n else 87 + n)

/-- The function `hex.EncodeToString`. -/
def hex (bs : List Nat) : String :=
  String.mk (bs.flatMap (fun b => [hexDigit (b / 16), hexDigit (b % 16)]))

end Sha256

/-- Modelled from the spec: `GetParamHmacSHA256Sign` of the `Utils` package is
not part of the source file; the spec describes it as a keyed hash (HMAC using
SHA-256) over the encoded parameter string, rendered as a lowercase hexadecimal
string. -/
def hmacSHA256Sign (secret params : String) : String × Option Error :=
  (Sha256.hex (Sha256.hmac (bytes secret) (bytes params)), none)

/-! ## A concrete environment

An instance of `Env` for running the code on concrete inputs: currencies are
their symbols, a pair is written base then quote, a number is read from a
plain decimal text and rounded to the nearest `float64`, and the transport
answers with fixed responses. -/

/-- The position of the highest bit of `n`, that is the floor of its binary
logarithm; `fuel` bounds the number of bits. -/
def highBit : Nat → Nat → Nat
  | 0, _ => 0
  | fuel + 1, n => if n < 2 then 0 else highBit fuel (n / 2) + 1

/-- The `float64` nearest to the non-negative rational `a / b` (ties to even),
with overflow to infinity. -/
def nearestFloat64 (a b : Nat) : Float64 :=
  if a = 0 ∨ b = 0 then Float64.finite 0
  else
    let e0 : Int := (highBit a a : Int) - (highBit b b : Int)
    let below : Bool := if 0 ≤ e0 then decide (a < b * 2 ^ e0.toNat)
      else decide (a * 2 ^ (-e0).toNat < b)
    let e : Int := if below then e0 - 1 else e0
    let u : Int := max (e - 52) (-1074)
    let n : Nat := if u < 0 then a * 2 ^ (-u).toNat else a
    let d : Nat := if u < 0 then b else b * 2 ^ u.toNat
    let q := n / d
    let r := n % d
    let m := if 2 * r < d then q else if d < 2 * r then q + 1 else if q % 2 = 0 then q else q + 1
    if u < 0 then Float64.finite (mkRat m (2 ^ (-u).toNat))
    else if m * 2 ^ u.toNat < 179769313486231590772930519078902473361797697894230657273430081157732675805500963132708477322407536021120113879871393357658789768814416622492847430639474124377767893424865485276302219601246094119453082952085005768838150682342462881473913110540827237163350510684586298239947245938479716304835356329624224137216 then Float64.finite (mkRat (m * 2 ^ u.toNat) 1)
    else Float64.posInf

/-- The value of a sequence of decimal digits. -/
def digitsValue (cs : List Char) : Nat := cs.foldl (fun acc c => 10 * acc + (c.toNat - 48)) 0

/-- A plain decimal text `[+-]digits[.digits]` as sign, digits and number of
fraction digits. -/
def readDecimal (s : String) : Option (Bool × Nat × Nat) :=
  let (neg, cs) : Bool × List Char :=
    match s.data with
    | '-' :: r => (true, r)
    | '+' :: r => (false, r)
    | r => (false, r)
  let ip := cs.takeWhile Char.isDigit
  match cs.dropWhile Char.isDigit with
  | [] => if ip.isEmpty then none else some (neg, digitsValue ip, 0)
  | '.' :: fp =>
    if fp.all Char.isDigit && !(ip.isEmpty && fp.isEmpty) then
      some (neg, digitsValue (ip ++ fp), fp.length)
    else none
  | _ => none

/-- Negation of a `float64`. -/
def Float64.neg : Float64 → Float64
  | Float64.finite q => Float64.finite (-q)
  | Float64.posInf => Float64.negInf
  | Float64.negInf => Float64.posInf
  | Float64.nan => Float64.nan

/-- A reader of plain decimal texts in the manner of `strconv.ParseFloat`:
the nearest `float64` and no error, or 0 and a syntax error. -/
def sampleParseFloat (s : String) (_bitSize : Nat) : Float64 × Option Error :=
  match readDecimal s with
  | none => (Float64.finite 0, some ("strconv.ParseFloat: parsing " ++ s ++ ": invalid syntax"))
  | some (neg, m, k) =>
    let x := nearestFloat64 m (10 ^ k)
    (if neg then Float64.neg x else x,
     if x = Float64.posInf then some ("strconv.ParseFloat: parsing " ++ s ++ ": value out of range")
     else none)

/-- A conversion in the manner of `ToFloat64`: numbers as they are, texts read
as decimals, anything else 0. -/
def sampleToFloat64 : JSON → Float64
  | JSON.num x => x
  | JSON.str s => (sampleParseFloat s 64).1
  | _ => Float64.finite 0

/-- A conversion in the manner of `ToInt`: the integer part of what
`sampleToFloat64` gives. -/
def sampleToInt (v : JSON) : Int :=
  match sampleToFloat64 v with
  | Float64.finite q => if 0 ≤ q then q.floor else -((-q).floor)
  | _ => 0

/-- The concrete environment: the clock reads `unixNano` nanoseconds, every GET
is answered by `resp`, every POST or DELETE by the body `body`, which decodes
to `decoded`; `uint64(x)` of a value out of range is `2^63`. -/
def sampleEnv (unixNano : Int) (resp : Except Error JObj) (body : Except Error String)
    (decoded : Except Error JObj) : Env (String × String) String where
  ToSymbol := fun pair joinChar => pair.1 ++ joinChar ++ pair.2
  NewCurrency := fun symbol _ => symbol
  ToFloat64 := sampleToFloat64
  ToInt := sampleToInt
  GetParamHmacSHA256Sign := hmacSHA256Sign
  HttpGet := fun _ => resp
  HttpGet2 := fun _ _ _ => resp
  HttpPostForm2 := fun _ _ _ => body
  HttpDeleteForm := fun _ _ _ => body
  Unmarshal := fun _ => decoded
  ParseFloat := sampleParseFloat
  UnixNano := unixNano
  Unix := unixNano / 1000000000
  uint64Impl := fun _ => 9223372036854775808

/-- The client used in the concrete runs. -/
def sampleClient : Binance := New "access" "secret"

/-- The asset that an entry of `balances` names, when it is an object with a
string `asset`. -/
def balanceAsset (v : JSON) : Option String :=
  match v.asMap with
  | none => none
  | some vv => (JObj.index vv "asset").asString

/-! ## Checks of the hash function -/

set_option maxRecDepth 100000 in
/-- The constants of SHA-256 are those of the standard. -/
theorem Sha256.constants :
    Sha256.K.length = 64 ∧ Sha256.K.take 2 = [0x428a2f98, 0x71374491]
      ∧ Sha256.K.drop 62 = [0xbef9a3f7, 0xc67178f2]
      ∧ Sha256.H0 = [0x6a09e667, 0xbb67ae85, 0x3c6ef372, 0xa54ff53a, 0x510e527f, 0x9b05688c,
          0x1f83d9ab, 0x5be0cd19] := by
  decide

set_option maxRecDepth 1000000 in
/-- The hash of `abc` and the HMAC of a well-known test phrase. -/
theorem Sha256.test_vectors :
    Sha256.hex (Sha256.sum (bytes "abc"))
        = "ba7816bf8f01cfea414140de5dae2223b00361a396177a9cb410ff61f20015ad"
      ∧ (hmacSHA256Sign "key" "The quick brown fox jumps over the lazy dog").1
        = "f7bc83f430538424b13298e6aa6fb143ef4d59a14946175997479dbc2d1a3cd8" := by
  decide

/-! ## Lemmas on decimal rendering -/

theorem decDigits_fuel (f : Nat) : ∀ g n : Nat, n < f → n < g → decDigits f n = decDigits g n := by
  induction f with
  | zero => intro g n h; omega
  | succ f ih =>
    intro g n hf hg
    cases g with
    | zero => omega
    | succ g =>
      simp only [decDigits]
      by_cases h10 : n < 10
      · simp [h10]
      · simp only [h10, if_false]
        rw [ih g (n / 10) (by omega) (by omega)]

theorem decDigits_step (n : Nat) (h : 10 ≤ n) :
    decDigits (n + 1) n = decDigits (n / 10 + 1) (n / 10) ++ [Nat.digitChar (n % 10)] := by
  have h10 : ¬ n < 10 := by omega
  have hdef : decDigits (n + 1) n
      = if n < 10 then [Nat.digitChar n]
        else decDigits n (n / 10) ++ [Nat.digitChar (n % 10)] := rfl
  rw [hdef, if_neg h10, decDigits_fuel n (n / 10 + 1) (n / 10) (by omega) (by omega)]

theorem decDigits_length (k : Nat) :
    ∀ n : Nat, 10 ^ k ≤ n → n < 10 ^ (k + 1) → (decDigits (n + 1) n).length = k + 1 := by
  induction k with
  | zero =>
    intro n _ h2
    have h10 : n < 10 := by simpa using h2
    simp [decDigits, h10]
  | succ k ih =>
    intro n h1 h2
    have hpos : 0 < 10 ^ k := by positivity
    have e1 : 10 ^ (k + 1) = 10 ^ k * 10 := pow_succ 10 k
    have e2 : 10 ^ (k + 1 + 1) = 10 ^ (k + 1) * 10 := pow_succ 10 (k + 1)
    have h10 : 10 ≤ n := by omega
    rw [decDigits_step n h10, List.length_append, ih (n / 10)
      ((Nat.le_div_iff_mul_le (by decide)).2 (by omega))
      ((Nat.div_lt_iff_lt_mul (by decide)).2 (by omega))]
    rfl

theorem decDigits_take (j : Nat) :
    ∀ n : Nat, 10 ^ j ≤ n →
      (decDigits (n + 1) n).take ((decDigits (n + 1) n).length - j)
        = decDigits (n / 10 ^ j + 1) (n / 10 ^ j) := by
  induction j with
  | zero => intro n _; simp
  | succ j ih =>
    intro n h1
    have hpos : 0 < 10 ^ j := by positivity
    have e1 : 10 ^ (j + 1) = 10 ^ j * 10 := pow_succ 10 j
    have h10 : 10 ≤ n := by omega
    have hdiv : 10 ^ j ≤ n / 10 := (Nat.le_div_iff_mul_le (by decide)).2 (by omega)
    rw [decDigits_step n h10, List.length_append, List.length_singleton,
      Nat.add_sub_add_right, List.take_append_of_le_length (Nat.sub_le _ _), ih (n / 10) hdiv,
      Nat.div_div_eq_div_mul, e1, Nat.mul_comm 10 (10 ^ j)]

theorem digitChar_isDigit (d : Nat) (h : d < 10) : (Nat.digitChar d).isDigit = true := by
  interval_cases d <;> decide

theorem decDigits_isDigit (f : Nat) : ∀ n : Nat, ∀ c ∈ decDigits f n, c.isDigit = true := by
  induction f with
  | zero => intro n c hc; simp [decDigits] at hc
  | succ f ih =>
    intro n c hc
    simp only [decDigits] at hc
    by_cases h10 : n < 10
    · simp only [h10, if_true, List.mem_singleton] at hc
      rw [hc]; exact digitChar_isDigit n h10
    · simp only [h10, if_false, List.mem_append, List.mem_singleton] at hc
      rcases hc with hc | hc
      · exact ih _ c hc
      · rw [hc]; exact digitChar_isDigit _ (Nat.mod_lt _ (by decide))

/-- For a clock reading of 19 digits the value of `tonce` is the reading in
milliseconds. -/
theorem tonce_nat (m : Nat) (h1 : 10 ^ 18 ≤ m) (h2 : m < 10 ^ 19) :
    tonce (m : Int) = some (FormatNat (m / 1000000))
      ∧ (FormatNat (m / 1000000)).data.length = 13 := by
  have hlen : (decDigits (m + 1) m).length = 19 := decDigits_length 18 m h1 h2
  have htake := decDigits_take 6 m (by omega)
  rw [hlen] at htake
  have hlen2 : (decDigits (m / 1000000 + 1) (m / 1000000)).length = 13 :=
    decDigits_length 12 (m / 1000000)
      ((Nat.le_div_iff_mul_le (by decide)).2 (by omega))
      ((Nat.div_lt_iff_lt_mul (by decide)).2 (by omega))
  refine ⟨?_, hlen2⟩
  show sliceTo (FormatNat m) 13 = _
  simp only [sliceTo, FormatNat, hlen]
  simp only [show (13 : Nat) ≤ 19 by decide, if_true]
  have e : (10 : Nat) ^ 6 = 1000000 := by norm_num
  rw [e] at htake
  rw [← htake]

/-! ## Lemmas on maps -/

section MapLemmas

variable {κ β : Type} [DecidableEq κ]

theorem Map.get_del_same (m : List (κ × β)) (k : κ) : Map.get (Map.del m k) k = none := by
  induction m with
  | nil => rfl
  | cons kb rest ih =>
    obtain ⟨k', b⟩ := kb
    by_cases h : k' = k
    · simpa [Map.del, List.filter_cons, h] using ih
    · simpa [Map.del, List.filter_cons, h, Map.get] using ih

theorem Map.get_del_ne (m : List (κ × β)) (k k' : κ) (hne : k' ≠ k) :
    Map.get (Map.del m k) k' = Map.get m k' := by
  induction m with
  | nil => rfl
  | cons kb rest ih =>
    obtain ⟨k₀, b⟩ := kb
    have hcons : Map.del ((k₀, b) :: rest) k
        = if k₀ = k then Map.del rest k else (k₀, b) :: Map.del rest k := by
      by_cases h : k₀ = k <;> simp [Map.del, List.filter_cons, h]
    rw [hcons]
    by_cases h : k₀ = k
    · have h' : ¬ k₀ = k' := fun e => hne (e.symm.trans h)
      rw [if_pos h, ih]
      simp [Map.get, h']
    · rw [if_neg h]
      by_cases h' : k₀ = k'
      · simp [Map.get, h']
      · simp [Map.get, h', ih]

theorem Map.get_set_same (m : List (κ × β)) (k : κ) (b : β) :
    Map.get (Map.set m k b) k = some b := by
  simp [Map.set, Map.get]

theorem Map.get_set_ne (m : List (κ × β)) (k k' : κ) (b : β) (hne : k' ≠ k) :
    Map.get (Map.set m k b) k' = Map.get m k' := by
  have h : ¬ k = k' := fun e => hne e.symm
  simp only [Map.set, Map.get, h, if_false]
  exact Map.get_del_ne m k k' hne

theorem Map.get_set (m : List (κ × β)) (k k' : κ) (b : β) :
    Map.get (Map.set m k b) k' = if k' = k then some b else Map.get m k' := by
  by_cases h : k' = k
  · rw [if_pos h, h, Map.get_set_same]
  · rw [if_neg h, Map.get_set_ne _ _ _ _ h]

theorem Map.get_eq_none_iff (m : List (κ × β)) (k : κ) :
    Map.get m k = none ↔ k ∉ m.map Prod.fst := by
  induction m with
  | nil => simp [Map.get]
  | cons kb rest ih =>
    obtain ⟨k₀, b⟩ := kb
    by_cases h : k₀ = k
    · simp [Map.get, h]
    · have h' : ¬ k = k₀ := fun e => h e.symm
      simp [Map.get, h, h', ih]

theorem Map.mem_keys_iff (m : List (κ × β)) (k : κ) :
    k ∈ Map.keys m ↔ Map.get m k ≠ none := by
  rw [Ne, Map.get_eq_none_iff, not_not, Map.keys, List.mem_dedup]

theorem Map.nodup_keys (m : List (κ × β)) : (Map.keys m).Nodup := List.nodup_dedup _

theorem Map.keys_perm (m m' : List (κ × β)) (h : ∀ k, Map.get m k = Map.get m' k) :
    (Map.keys m).Perm (Map.keys m') := by
  refine (List.perm_ext_iff_of_nodup (Map.nodup_keys m) (Map.nodup_keys m')).2 ?_
  intro k
  rw [Map.mem_keys_iff, Map.mem_keys_iff, h k]

end MapLemmas

/-! ## Lemmas on `Values.Encode` and `buildPostForm` -/

instance : IsTotal String keyLe := ⟨fun a b => le_total a.data b.data⟩

instance : IsTrans String keyLe := ⟨fun _ _ _ hab hbc => le_trans (α := List Char) hab hbc⟩

instance : IsAntisymm String keyLe :=
  ⟨fun _ _ hab hba => String.ext (le_antisymm (α := List Char) hab hba)⟩

/-- The encoded form depends only on the bindings of the map. -/
theorem Values.Encode_congr (a b : Values) (h : ∀ k, Map.get a k = Map.get b k) :
    Values.Encode a = Values.Encode b := by
  have hkeys : (Map.keys a).insertionSort keyLe = (Map.keys b).insertionSort keyLe :=
    List.eq_of_perm_of_sorted
      (((List.perm_insertionSort keyLe _).trans (Map.keys_perm a b h)).trans
        (List.perm_insertionSort keyLe _).symm)
      (List.sorted_insertionSort keyLe _) (List.sorted_insertionSort keyLe _)
  have hfun : encodeKey a = encodeKey b := by
    funext k
    simp only [encodeKey, h k]
  simp only [Values.Encode, hkeys, hfun]

/-- Deleting the key that was set last gives back the bindings before. -/
theorem Values.get_del_set (v : Values) (key value : String) (hfresh : Map.get v key = none)
    (k : String) : Map.get (Values.Del (Values.Set v key value) key) k = Map.get v k := by
  by_cases hk : k = key
  · rw [hk, Values.Del, Map.get_del_same, hfresh]
  · rw [Values.Del, Map.get_del_ne _ _ _ hk, Values.Set, Map.get_set_ne _ _ _ _ hk]

/-- The result of `buildPostForm` once `tonce` is known. -/
theorem buildPostForm_eq {CurrencyPair Currency : Type} (env : Env CurrencyPair Currency)
    (ba : Binance) (postForm : Values) (ts : String) (hts : tonce env.UnixNano = some ts) :
    buildPostForm env ba postForm
      = some (Values.Set (Values.Set (Values.Set postForm "recvWindow" "6000000") "timestamp" ts)
          "signature" (env.GetParamHmacSHA256Sign ba.secretKey (signedPayload postForm ts)).1) := by
  simp only [buildPostForm, hts, signedPayload]

/-- The value signed by `buildPostForm` is the encoded form of the result
without its signature, provided the input had no signature. -/
theorem buildPostForm_signature_spec {CurrencyPair Currency : Type}
    (env : Env CurrencyPair Currency) (ba : Binance) (postForm form : Values)
    (hfresh : Map.get postForm "signature" = none)
    (hform : buildPostForm env ba postForm = some form) :
    Map.get form "signature"
      = some [(env.GetParamHmacSHA256Sign ba.secretKey
          (Values.Encode (Values.Del form "signature"))).1] := by
  cases hts : tonce env.UnixNano with
  | none => simp [buildPostForm, hts] at hform
  | some ts =>
    rw [buildPostForm_eq env ba postForm ts hts] at hform
    have hform' := (Option.some.inj hform).symm
    have hbefore : Map.get (Values.Set (Values.Set postForm "recvWindow" "6000000")
        "timestamp" ts) "signature" = none := by
      rw [Values.Set, Map.get_set_ne _ _ _ _ (by decide), Values.Set,
        Map.get_set_ne _ _ _ _ (by decide), hfresh]
    have henc : Values.Encode (Values.Del form "signature") = signedPayload postForm ts := by
      rw [hform', signedPayload]
      exact Values.Encode_congr _ _ (Values.get_del_set _ _ _ hbefore)
    rw [henc, hform', Values.Set, Map.get_set_same]

/-- The ticker that `GetTicker` builds from a response whose `closeTime` is a
number and whose price fields are strings. -/
theorem tickerOfMap_eq {CurrencyPair Currency : Type} (env : Env CurrencyPair Currency)
    (tickerMap : JObj) (closeTime : Float64)
    (lastPrice bidPrice askPrice lowPrice highPrice volume : String)
    (hclose : Map.get tickerMap "closeTime" = some (JSON.num closeTime))
    (hlast : Map.get tickerMap "lastPrice" = some (JSON.str lastPrice))
    (hbid : Map.get tickerMap "bidPrice" = some (JSON.str bidPrice))
    (hask : Map.get tickerMap "askPrice" = some (JSON.str askPrice))
    (hlow : Map.get tickerMap "lowPrice" = some (JSON.str lowPrice))
    (hhigh : Map.get tickerMap "highPrice" = some (JSON.str highPrice))
    (hvol : Map.get tickerMap "volume" = some (JSON.str volume)) :
    tickerOfMap env tickerMap
      = some
          { Date := Float64.toUint64 env.uint64Impl closeTime
            Last := (env.ParseFloat lastPrice 10).1
            Buy := (env.ParseFloat bidPrice 10).1
            Sell := (env.ParseFloat askPrice 10).1
            Low := (env.ParseFloat lowPrice 10).1
            High := (env.ParseFloat highPrice 10).1
            Vol := (env.ParseFloat volume 10).1 } := by
  simp only [tickerOfMap, JObj.index, hclose, hlast, hbid, hask, hlow, hhigh, hvol,
    Option.getD_some, JSON.asFloat64, JSON.asString]

/-- A response without `closeTime` makes the type assertion of `GetTicker`
panic: nothing is returned, in particular no error. -/
theorem GetTicker_absent_closeTime {CurrencyPair Currency : Type}
    (env : Env CurrencyPair Currency) (currency : CurrencyPair) (tickerMap : JObj)
    (hhttp : env.HttpGet (API_V1 ++ TICKER_URI (env.ToSymbol currency "")) = Except.ok tickerMap)
    (hclose : Map.get tickerMap "closeTime" = none) :
    GetTicker env currency = none := by
  simp only [GetTicker, hhttp, tickerOfMap, JObj.index, hclose, Option.getD_none,
    JSON.asFloat64]

/-- The conversion `uint64(x)` of a whole number below `2^64` is that number. -/
theorem Float64.toUint64_natCast (impl : Float64 → Nat) (n : Nat)
    (h : n < 18446744073709551616) : Float64.toUint64 impl (Float64.finite (n : ℚ)) = n := by
  have h1 : (-1 : ℚ) < (n : ℚ) := lt_of_lt_of_le (by norm_num) (Nat.cast_nonneg n)
  have h2 : (n : ℚ) < 18446744073709551616 := by exact_mod_cast h
  have hfloor : (n : ℚ).floor = (n : Int) := by
    show ⌊(n : ℚ)⌋ = (n : Int)
    exact Int.floor_natCast n
  simp only [Float64.toUint64, h1, h2, and_self, if_true, hfloor, Int.toNat_natCast]

/-- The order that `GetUnfinishOrders` builds from an entry that is an object
with a string `type`. -/
theorem unfinishOrder_eq {CurrencyPair Currency : Type} (env : Env CurrencyPair Currency)
    (currencyPair : CurrencyPair) (ord : JObj) (ty : String)
    (hty : Map.get ord "type" = some (JSON.str ty)) :
    unfinishOrder env currencyPair (JSON.obj ord)
      = some
          { OrderID := env.ToInt (JObj.index ord "orderId")
            Currency := currencyPair
            Price := env.ToFloat64 (JObj.index ord "price")
            Amount := env.ToFloat64 (JObj.index ord "origQty")
            DealAmount := Float64.finite 0
            AvgPrice := Float64.finite 0
            Side := if ty = "BUY" then TradeSide.BUY else TradeSide.SELL
            Status := TradeStatus.ORDER_UNFINISH
            OrderTime := env.ToInt (JObj.index ord "time") } := by
  simp only [unfinishOrder, JSON.asMap, JObj.index, hty, Option.getD_some, JSON.asString]

/-- Two entries that agree on every key but `side` give the same order. -/
theorem unfinishOrder_side_irrelevant {CurrencyPair Currency : Type}
    (env : Env CurrencyPair Currency) (currencyPair : CurrencyPair) (ord ord' : JObj)
    (h : ∀ k, k ≠ "side" → Map.get ord k = Map.get ord' k) :
    unfinishOrder env currencyPair (JSON.obj ord)
      = unfinishOrder env currencyPair (JSON.obj ord') := by
  simp only [unfinishOrder, JSON.asMap, JObj.index, h "type" (by decide),
    h "orderId" (by decide), h "price" (by decide), h "origQty" (by decide),
    h "time" (by decide)]

/-! ## Lemmas on the loop of `GetAccount` -/

section AccountLemmas

variable {CurrencyPair Currency : Type} [DecidableEq Currency]

theorem Map.nodup_set {κ β : Type} [DecidableEq κ] (m : List (κ × β)) (k : κ) (b : β)
    (h : (m.map Prod.fst).Nodup) : ((Map.set m k b).map Prod.fst).Nodup := by
  have hsub : ((Map.del m k).map Prod.fst).Sublist (m.map Prod.fst) :=
    (List.filter_sublist m).map Prod.fst
  have hnot : k ∉ (Map.del m k).map Prod.fst :=
    (Map.get_eq_none_iff _ _).1 (Map.get_del_same m k)
  simpa [Map.set] using And.intro hnot (h.sublist hsub)

theorem balanceAsset_obj (vv : JObj) (asset : String)
    (h : Map.get vv "asset" = some (JSON.str asset)) :
    balanceAsset (JSON.obj vv) = some asset := by
  simp only [balanceAsset, JSON.asMap, JObj.index, h, Option.getD_some, JSON.asString]

theorem accountStep_eq (env : Env CurrencyPair Currency)
    (subAccounts : List (Currency × SubAccount Currency)) (vv : JObj) (asset : String)
    (h : Map.get vv "asset" = some (JSON.str asset)) :
    accountStep env subAccounts (JSON.obj vv)
      = some (Map.set subAccounts (env.NewCurrency asset "")
          { Currency := env.NewCurrency asset ""
            Amount := env.ToFloat64 (JObj.index vv "free")
            ForzenAmount := env.ToFloat64 (JObj.index vv "locked") }) := by
  simp only [accountStep, JSON.asMap, JObj.index, h, Option.getD_some, JSON.asString]

/-- The loop of `GetAccount` on well-formed entries: it ends, keeps the keys
distinct, leaves currencies that no entry names as they were, and binds the
currency of an entry that no later entry names again to the amounts of that
entry. -/
theorem accountLoop_spec (env : Env CurrencyPair Currency) (balances : List JSON) :
    ∀ subAccounts : List (Currency × SubAccount Currency),
    (∀ v ∈ balances, ∃ vv asset, v = JSON.obj vv ∧ Map.get vv "asset" = some (JSON.str asset)) →
    ∃ result, accountLoop env subAccounts balances = some result
      ∧ ((subAccounts.map Prod.fst).Nodup → (result.map Prod.fst).Nodup)
      ∧ (∀ c, (∀ a ∈ balances.filterMap balanceAsset, env.NewCurrency a "" ≠ c) →
          Map.get result c = Map.get subAccounts c)
      ∧ (∀ pre vv post asset, balances = pre ++ JSON.obj vv :: post →
          Map.get vv "asset" = some (JSON.str asset) →
          (∀ a ∈ post.filterMap balanceAsset, env.NewCurrency a "" ≠ env.NewCurrency asset "") →
          Map.get result (env.NewCurrency asset "")
            = some
                { Currency := env.NewCurrency asset ""
                  Amount := env.ToFloat64 (JObj.index vv "free")
                  ForzenAmount := env.ToFloat64 (JObj.index vv "locked") }) := by
  induction balances with
  | nil =>
    intro subAccounts _
    refine ⟨subAccounts, rfl, id, fun _ _ => rfl, ?_⟩
    intro pre vv post asset h
    cases pre <;> simp at h
  | cons v rest ih =>
    intro subAccounts hwf
    obtain ⟨vv₀, a₀, hv, ha₀⟩ := hwf v (List.mem_cons_self _ _)
    subst hv
    obtain ⟨result, hrun, hnodup, hkeep, hlast⟩ :=
      ih (Map.set subAccounts (env.NewCurrency a₀ "")
          { Currency := env.NewCurrency a₀ ""
            Amount := env.ToFloat64 (JObj.index vv₀ "free")
            ForzenAmount := env.ToFloat64 (JObj.index vv₀ "locked") })
        (fun v' h => hwf v' (List.mem_cons_of_mem _ h))
    have hassets : (JSON.obj vv₀ :: rest).filterMap balanceAsset
        = a₀ :: rest.filterMap balanceAsset := by
      rw [List.filterMap_cons, balanceAsset_obj vv₀ a₀ ha₀]
    refine ⟨result, ?_, ?_, ?_, ?_⟩
    · simp only [accountLoop, accountStep_eq env subAccounts vv₀ a₀ ha₀, hrun]
    · intro h
      exact hnodup (Map.nodup_set _ _ _ h)
    · intro c hc
      rw [hassets] at hc
      rw [hkeep c (fun a ha => hc a (List.mem_cons_of_mem _ ha)),
        Map.get_set_ne _ _ _ _ (fun e => hc a₀ (List.mem_cons_self _ _) e.symm)]
    · intro pre vv post asset hsplit hasset hlater
      cases pre with
      | nil =>
        simp only [List.nil_append, List.cons.injEq] at hsplit
        obtain ⟨hvv, hpost⟩ := hsplit
        have hvv' := JSON.obj.inj hvv
        subst hvv' hpost
        have ha : a₀ = asset := by
          have := ha₀.symm.trans hasset
          simpa using this
        subst ha
        rw [hkeep _ hlater, Map.get_set_same]
      | cons p pre' =>
        simp only [List.cons_append, List.cons.injEq] at hsplit
        exact hlast pre' vv post asset hsplit.2 hasset hlater

/-- Every asset that the entries name has a last entry naming it. -/
theorem exists_last_balance (balances : List JSON)
    (hwf : ∀ v ∈ balances, ∃ vv asset, v = JSON.obj vv ∧ Map.get vv "asset" = some (JSON.str asset))
    (asset : String) (h : asset ∈ balances.filterMap balanceAsset) :
    ∃ pre vv post, balances = pre ++ JSON.obj vv :: post
      ∧ Map.get vv "asset" = some (JSON.str asset)
      ∧ asset ∉ post.filterMap balanceAsset := by
  induction balances with
  | nil => simp at h
  | cons v rest ih =>
    obtain ⟨vv₀, a₀, hv, ha₀⟩ := hwf v (List.mem_cons_self _ _)
    subst hv
    by_cases hrest : asset ∈ rest.filterMap balanceAsset
    · obtain ⟨pre, vv, post, hsplit, hasset, hnot⟩ :=
        ih (fun v' h => hwf v' (List.mem_cons_of_mem _ h)) hrest
      exact ⟨JSON.obj vv₀ :: pre, vv, post, by rw [hsplit]; rfl, hasset, hnot⟩
    · rw [List.filterMap_cons, balanceAsset_obj vv₀ a₀ ha₀, List.mem_cons] at h
      rcases h with h | h
      · subst h
        exact ⟨[], vv₀, rest, rfl, ha₀, hrest⟩
      · exact absurd h hrest

end AccountLemmas

/-! ## The theorems -/

/-- C1: the limit that `GetDepth` writes into the request URL is the requested
size clamped to the range from 0 to 100: 100 above 100, 0 below 0, the size
itself otherwise; 500 gives 100 and -5 gives 0. -/
theorem GetDepth_limit_clamped {CurrencyPair Currency : Type} (env : Env CurrencyPair Currency)
    (size : Int) (currencyPair : CurrencyPair) :
    depthUrl env size currencyPair
        = API_V1 ++ DEPTH_URI (env.ToSymbol currencyPair "") (max 0 (min size 100))
      ∧ GetDepth env size currencyPair
        = (match env.HttpGet
              (API_V1 ++ DEPTH_URI (env.ToSymbol currencyPair "") (max 0 (min size 100))) with
          | Except.error err => some (none, some err)
          | Except.ok resp => depthOfResp env resp)
      ∧ ((100 < size ∧ depthLimit size = 100) ∨ (size < 0 ∧ depthLimit size = 0)
          ∨ (0 ≤ size ∧ size ≤ 100 ∧ depthLimit size = size))
      ∧ depthLimit 500 = 100 ∧ depthLimit (-5) = 0
      ∧ DEPTH_URI "BTCUSDT" (depthLimit 500) = "depth?symbol=BTCUSDT&limit=100"
      ∧ DEPTH_URI "BTCUSDT" (depthLimit (-5)) = "depth?symbol=BTCUSDT&limit=0" := by
  have hclamp : depthLimit size = max 0 (min size 100) := by
    unfold depthLimit
    split_ifs <;> omega
  refine ⟨?_, ?_, ?_, by decide, by decide, by decide, by decide⟩
  · rw [depthUrl, hclamp]
  · rw [GetDepth, depthUrl, hclamp]
  · unfold depthLimit
    split_ifs <;> omega

/-- C2, amended: for a parameter set without a `signature` entry and a clock
reading whose decimal rendering has at least 13 characters (so that `tonce` is
defined), `buildPostForm` returns the input with `recvWindow = "6000000"`,
`timestamp` and `signature` set and every other entry unchanged; the signature
is set last and is the HMAC under the secret key of the encoded form of all the
other fields of the result, hence a function of those fields and the key: any
other run with the same key whose result has the same other fields has the same
signature. -/
theorem buildPostForm_signs {CurrencyPair Currency : Type} (env : Env CurrencyPair Currency)
    (ba : Binance) (postForm : Values) (ts : String)
    (hclock : tonce env.UnixNano = some ts)
    (hfresh : Map.get postForm "signature" = none) :
    ∃ form sign,
      buildPostForm env ba postForm = some form
      ∧ form = Values.Set
          (Values.Set (Values.Set postForm "recvWindow" "6000000") "timestamp" ts)
          "signature" sign
      ∧ Map.get form "recvWindow" = some ["6000000"]
      ∧ Map.get form "timestamp" = some [ts]
      ∧ Map.get form "signature" = some [sign]
      ∧ (∀ k, k ≠ "recvWindow" → k ≠ "timestamp" → k ≠ "signature" →
          Map.get form k = Map.get postForm k)
      ∧ sign = (env.GetParamHmacSHA256Sign ba.secretKey
          (Values.Encode (Values.Del form "signature"))).1
      ∧ (∀ (env' : Env CurrencyPair Currency) (ba' : Binance) (postForm' form' : Values),
          env'.GetParamHmacSHA256Sign = env.GetParamHmacSHA256Sign →
          ba'.secretKey = ba.secretKey →
          Map.get postForm' "signature" = none →
          buildPostForm env' ba' postForm' = some form' →
          (∀ k, k ≠ "signature" → Map.get form' k = Map.get form k) →
          Map.get form' "signature" = Map.get form "signature") := by
  have hform := buildPostForm_eq env ba postForm ts hclock
  have hspec := buildPostForm_signature_spec env ba postForm _ hfresh hform
  refine ⟨_, _, hform, rfl, ?_, ?_, ?_, ?_, ?_, ?_⟩
  · rw [Values.Set, Map.get_set_ne _ _ _ _ (by decide), Values.Set,
      Map.get_set_ne _ _ _ _ (by decide), Values.Set, Map.get_set_same]
  · rw [Values.Set, Map.get_set_ne _ _ _ _ (by decide), Values.Set, Map.get_set_same]
  · rw [Values.Set, Map.get_set_same]
  · intro k h1 h2 h3
    rw [Values.Set, Map.get_set_ne _ _ _ _ h3, Values.Set, Map.get_set_ne _ _ _ _ h2,
      Values.Set, Map.get_set_ne _ _ _ _ h1]
  · have h := hspec
    rw [Values.Set, Map.get_set_same] at h
    exact List.head_eq_of_cons_eq (Option.some.inj h)
  · intro env' ba' postForm' form' hmac hkey hfresh' hform' hsame
    rw [buildPostForm_signature_spec env' ba' postForm' form' hfresh' hform', hspec, hmac, hkey]
    have henc : Values.Encode (Values.Del form' "signature")
        = Values.Encode (Values.Del
            (Values.Set (Values.Set (Values.Set postForm "recvWindow" "6000000") "timestamp" ts)
              "signature" (env.GetParamHmacSHA256Sign ba.secretKey (signedPayload postForm ts)).1)
            "signature") := by
      apply Values.Encode_congr
      intro k
      by_cases hk : k = "signature"
      · rw [hk, Values.Del, Map.get_del_same, Values.Del, Map.get_del_same]
      · rw [Values.Del, Map.get_del_ne _ _ _ hk, Values.Del, Map.get_del_ne _ _ _ hk]
        exact hsame k hk
    rw [henc]

set_option maxRecDepth 1000000 in
/-- C2, witness: the form of a cancellation signed at the clock reading
1500000000000000000. -/
theorem buildPostForm_signs_witness :
    tonce (sampleEnv 1500000000000000000 (Except.error "") (Except.error "")
        (Except.error "")).UnixNano = some "1500000000000"
      ∧ Map.get ([("symbol", ["BTCUSDT"]), ("orderId", ["456"])] : Values) "signature" = none
      ∧ ∃ form sign,
        buildPostForm (sampleEnv 1500000000000000000 (Except.error "") (Except.error "")
            (Except.error "")) sampleClient [("symbol", ["BTCUSDT"]), ("orderId", ["456"])]
          = some form
        ∧ Map.get form "signature" = some [sign] :=
  ⟨by decide, by decide,
    match buildPostForm_signs
      (sampleEnv 1500000000000000000 (Except.error "") (Except.error "") (Except.error ""))
      sampleClient [("symbol", ["BTCUSDT"]), ("orderId", ["456"])] "1500000000000"
      (by decide) (by decide) with
    | ⟨form, sign, h1, _, _, _, h5, _⟩ => ⟨form, sign, h1, h5⟩⟩

set_option maxRecDepth 1000000 in
/-- C2, counterexample: at the clock reading 0 the rendering has one character
and `buildPostForm` panics instead of returning; and for a parameter set that
already holds a `signature` entry the signature of the result is not the HMAC
of the encoded form of the other fields of the result, because the old entry
was part of what was signed. -/
theorem buildPostForm_counterexample :
    buildPostForm (sampleEnv 0 (Except.error "") (Except.error "") (Except.error ""))
        sampleClient [("symbol", ["BTCUSDT"])] = none
      ∧ ∃ form,
        buildPostForm (sampleEnv 1500000000000000000 (Except.error "") (Except.error "")
            (Except.error "")) sampleClient [("signature", ["old"])] = some form
        ∧ form = [("signature",
              ["01cdad4a21ce288d56a8382d003b3da4dc1151d13c27709c206086a13ac4e592"]),
            ("timestamp", ["1500000000000"]), ("recvWindow", ["6000000"])]
        ∧ Values.Encode (Values.Del form "signature")
          = "recvWindow=6000000&timestamp=1500000000000"
        ∧ (hmacSHA256Sign sampleClient.secretKey (Values.Encode (Values.Del form "signature"))).1
          = "be1461b9314a36c4bc83462905e8c1c8a4557941fc66df2071ecfb950525137b"
        ∧ Map.get form "signature"
          ≠ some [(hmacSHA256Sign sampleClient.secretKey
              (Values.Encode (Values.Del form "signature"))).1] := by
  refine ⟨by decide, _, rfl, ?_, ?_, ?_, ?_⟩ <;> decide

/-- C3: once the cancellation response is decoded, `CancelOrder` returns
`(true, nil)` exactly when the `orderId` of the response is a string equal to
the requested identifier; a string that differs gives `false` with the error
`orderId doesn't match`; an absent `orderId` or one that is not a string gives
`false` with the error whose message is the raw response body. -/
theorem CancelOrder_checks_orderId {CurrencyPair Currency : Type}
    (env : Env CurrencyPair Currency) (ba : Binance) (orderId : String)
    (currencyPair : CurrencyPair) (params : Values) (resp : String) (respmap : JObj)
    (hsign : buildPostForm env ba (cancelOrderParams env orderId currencyPair) = some params)
    (hhttp : env.HttpDeleteForm (API_V3 ++ PLACE_ORDER_API) params
      [("X-MBX-APIKEY", ba.accessKey)] = Except.ok resp)
    (hjson : env.Unmarshal resp = Except.ok respmap) :
    (CancelOrder env ba orderId currencyPair = some (true, none)
        ↔ Map.get respmap "orderId" = some (JSON.str orderId))
      ∧ (∀ s, Map.get respmap "orderId" = some (JSON.str s) → s ≠ orderId →
          CancelOrder env ba orderId currencyPair = some (false, some "orderId doesn't match"))
      ∧ (Map.get respmap "orderId" = none →
          CancelOrder env ba orderId currencyPair = some (false, some resp))
      ∧ (∀ v, Map.get respmap "orderId" = some v → (∀ s, v ≠ JSON.str s) →
          CancelOrder env ba orderId currencyPair = some (false, some resp)) := by
  have hrun : CancelOrder env ba orderId currencyPair
      = some (cancelOfResp orderId resp respmap) := by
    simp only [CancelOrder, hsign, hhttp, hjson]
  rw [hrun]
  refine ⟨?_, ?_, ?_, ?_⟩
  · cases hget : Map.get respmap "orderId" with
    | none => simp [cancelOfResp, JObj.index, hget, JSON.asString]
    | some v =>
      cases v with
      | str s =>
        by_cases hs : s = orderId
        · simp [cancelOfResp, JObj.index, hget, JSON.asString, hs]
        · simp [cancelOfResp, JObj.index, hget, JSON.asString, hs]
      | _ => simp [cancelOfResp, JObj.index, hget, JSON.asString]
  · intro s hget hs
    simp [cancelOfResp, JObj.index, hget, JSON.asString, hs]
  · intro hget
    simp [cancelOfResp, JObj.index, hget, JSON.asString]
  · intro v hget hv
    cases v with
    | str s => exact absurd rfl (hv s)
    | _ => simp [cancelOfResp, JObj.index, hget, JSON.asString]

set_option maxRecDepth 1000000 in
/-- C3, witness: the response `{"orderId":"123"}` to the cancellation of `456`
is a mismatch failure. -/
theorem CancelOrder_checks_orderId_witness :
    (sampleEnv 1500000000000000000 (Except.error "")
        (Except.ok "\x7b\"orderId\":\"123\"\x7d")
        (Except.ok [("orderId", JSON.str "123")])).Unmarshal "\x7b\"orderId\":\"123\"\x7d"
      = Except.ok [("orderId", JSON.str "123")]
    ∧ CancelOrder
        (sampleEnv 1500000000000000000 (Except.error "")
          (Except.ok "\x7b\"orderId\":\"123\"\x7d")
          (Except.ok [("orderId", JSON.str "123")]))
        sampleClient "456" ("BTC", "USDT")
      = some (false, some "orderId doesn't match") :=
  ⟨rfl,
    (CancelOrder_checks_orderId
      (sampleEnv 1500000000000000000 (Except.error "")
        (Except.ok "\x7b\"orderId\":\"123\"\x7d")
        (Except.ok [("orderId", JSON.str "123")]))
      sampleClient "456" ("BTC", "USDT")
      [("signature", ["88aeaa8fcb5d537193edd1f8c7f108c159f1fe4e54ade5d264e5442fe2863db3"]),
        ("timestamp", ["1500000000000"]), ("recvWindow", ["6000000"]),
        ("orderId", ["456"]), ("symbol", ["BTCUSDT"])]
      "\x7b\"orderId\":\"123\"\x7d" [("orderId", JSON.str "123")]
      (by decide) rfl rfl).2.1 "123" rfl (by decide)⟩

/-- C4: for an account response whose `balances` is a sequence of objects with
`asset`, `free` and `locked`, the `SubAccounts` of the account that `GetAccount`
returns has exactly one entry per distinct asset of the sequence, and the entry
of an asset carries the free amount (`Amount`) and the locked amount
(`ForzenAmount`) of the last entry of the sequence with that asset.
`NewCurrency` is taken to send different asset names to different currencies. -/
theorem GetAccount_one_entry_per_asset {CurrencyPair Currency : Type} [DecidableEq Currency]
    (env : Env CurrencyPair Currency) (ba : Binance) (params : Values) (respmap : JObj)
    (balances : List JSON)
    (hsign : buildPostForm env ba [] = some params)
    (hhttp : env.HttpGet2 (API_V3 ++ ACCOUNT_URI) params [("X-MBX-APIKEY", ba.accessKey)]
      = Except.ok respmap)
    (hbal : Map.get respmap "balances" = some (JSON.arr balances))
    (hwf : ∀ v ∈ balances, ∃ vv asset free locked, v = JSON.obj vv
      ∧ Map.get vv "asset" = some (JSON.str asset)
      ∧ Map.get vv "free" = some free ∧ Map.get vv "locked" = some locked)
    (hinj : Function.Injective (fun asset => env.NewCurrency asset "")) :
    ∃ acc : Account Currency,
      GetAccount env ba = some (some acc, none)
      ∧ (acc.SubAccounts.map Prod.fst).Nodup
      ∧ acc.SubAccounts.length = ((balances.filterMap balanceAsset).dedup).length
      ∧ (∀ c, Map.get acc.SubAccounts c ≠ none
          ↔ ∃ asset ∈ balances.filterMap balanceAsset, c = env.NewCurrency asset "")
      ∧ (∀ pre vv post asset free locked, balances = pre ++ JSON.obj vv :: post →
          Map.get vv "asset" = some (JSON.str asset) →
          Map.get vv "free" = some free → Map.get vv "locked" = some locked →
          asset ∉ post.filterMap balanceAsset →
          Map.get acc.SubAccounts (env.NewCurrency asset "")
            = some
                { Currency := env.NewCurrency asset ""
                  Amount := env.ToFloat64 free
                  ForzenAmount := env.ToFloat64 locked }) := by
  have hwf' : ∀ v ∈ balances, ∃ vv asset, v = JSON.obj vv
      ∧ Map.get vv "asset" = some (JSON.str asset) := by
    intro v hv
    obtain ⟨vv, asset, _, _, h1, h2, _, _⟩ := hwf v hv
    exact ⟨vv, asset, h1, h2⟩
  obtain ⟨result, hrun, hnodup, hkeep, hlast⟩ := accountLoop_spec env balances [] hwf'
  have hlater : ∀ (post : List JSON) (asset : String), asset ∉ post.filterMap balanceAsset →
      ∀ a ∈ post.filterMap balanceAsset, env.NewCurrency a "" ≠ env.NewCurrency asset "" := by
    intro post asset hnot a ha e
    exact hnot (hinj e ▸ ha)
  have hkeys : ∀ c, Map.get result c ≠ none
      ↔ ∃ asset ∈ balances.filterMap balanceAsset, c = env.NewCurrency asset "" := by
    intro c
    constructor
    · intro hc
      by_contra hnone
      refine hc ?_
      rw [hkeep c (fun a ha e => hnone ⟨a, ha, e.symm⟩)]
      rfl
    · rintro ⟨asset, hasset, rfl⟩
      obtain ⟨pre, vv, post, hsplit, hvv, hnot⟩ := exists_last_balance balances hwf' asset hasset
      rw [hlast pre vv post asset hsplit hvv (hlater post asset hnot)]
      simp
  refine ⟨{ Exchange := GetExchangeName, SubAccounts := result }, ?_, hnodup List.nodup_nil,
    ?_, hkeys, ?_⟩
  · simp only [GetAccount, hsign, hhttp, accountOfResp, JObj.index, hbal, Option.getD_some,
      JSON.asSlice, hrun]
  · have hperm : (result.map Prod.fst).Perm
        (((balances.filterMap balanceAsset).dedup).map (fun asset => env.NewCurrency asset "")) := by
      refine (List.perm_ext_iff_of_nodup (hnodup List.nodup_nil)
        ((List.nodup_dedup _).map hinj)).2 ?_
      intro c
      have h1 : c ∈ result.map Prod.fst ↔ Map.get result c ≠ none := by
        rw [Ne, Map.get_eq_none_iff, not_not]
      rw [h1, hkeys c, List.mem_map]
      constructor
      · rintro ⟨asset, hasset, rfl⟩
        exact ⟨asset, List.mem_dedup.2 hasset, rfl⟩
      · rintro ⟨asset, hasset, rfl⟩
        exact ⟨asset, List.mem_dedup.1 hasset, rfl⟩
    have hlen := hperm.length_eq
    rw [List.length_map, List.length_map] at hlen
    exact hlen
  · intro pre vv post asset free locked hsplit hvv hfree hlocked hnot
    have h := hlast pre vv post asset hsplit hvv (hlater post asset hnot)
    simp only [JObj.index, hfree, hlocked, Option.getD_some] at h
    exact h

set_option maxRecDepth 1000000 in
/-- C4, witness: two entries for `BTC` give one sub-account, that of the later
entry. -/
theorem GetAccount_one_entry_per_asset_witness :
    ∃ acc : Account String,
      GetAccount
          (sampleEnv 1500000000000000000
            (Except.ok [("balances", JSON.arr
              [JSON.obj [("asset", JSON.str "BTC"), ("free", JSON.str "1.5"),
                  ("locked", JSON.str "0")],
                JSON.obj [("asset", JSON.str "BTC"), ("free", JSON.str "0.25"),
                  ("locked", JSON.str "0.5")]])])
            (Except.error "") (Except.error ""))
          sampleClient
        = some (some acc, none)
      ∧ acc.SubAccounts.length = 1
      ∧ Map.get acc.SubAccounts "BTC"
        = some { Currency := "BTC", Amount := Float64.finite (mkRat 1 4),
                 ForzenAmount := Float64.finite (mkRat 1 2) } :=
  match GetAccount_one_entry_per_asset
      (sampleEnv 1500000000000000000
        (Except.ok [("balances", JSON.arr
          [JSON.obj [("asset", JSON.str "BTC"), ("free", JSON.str "1.5"),
              ("locked", JSON.str "0")],
            JSON.obj [("asset", JSON.str "BTC"), ("free", JSON.str "0.25"),
              ("locked", JSON.str "0.5")]])])
        (Except.error "") (Except.error ""))
      sampleClient
      [("signature", ["be1461b9314a36c4bc83462905e8c1c8a4557941fc66df2071ecfb950525137b"]),
        ("timestamp", ["1500000000000"]), ("recvWindow", ["6000000"])]
      _ _ (by decide) rfl rfl
      (by
        intro v hv
        simp only [List.mem_cons, List.mem_singleton, List.not_mem_nil, or_false] at hv
        rcases hv with rfl | rfl
        · exact ⟨_, _, _, _, rfl, rfl, rfl, rfl⟩
        · exact ⟨_, _, _, _, rfl, rfl, rfl, rfl⟩)
      (fun _ _ h => h) with
  | ⟨acc, hrun, _, hlen, _, hlast⟩ =>
    ⟨acc, hrun, hlen.trans (by decide),
      (hlast
        [JSON.obj [("asset", JSON.str "BTC"), ("free", JSON.str "1.5"),
          ("locked", JSON.str "0")]]
        [("asset", JSON.str "BTC"), ("free", JSON.str "0.25"), ("locked", JSON.str "0.5")]
        [] "BTC" (JSON.str "0.25") (JSON.str "0.5") rfl rfl rfl rfl (by simp)).trans
        (by decide)⟩

/-- C5: a decoded depth response with a `code` key and a string `msg` makes
`GetDepth` return no depth and the error whose message is `msg`, whatever else
the response holds; a response without a `code` key never gives an error. -/
theorem GetDepth_error_envelope {CurrencyPair Currency : Type}
    (env : Env CurrencyPair Currency) (size : Int) (currencyPair : CurrencyPair) (resp : JObj)
    (hhttp : env.HttpGet (depthUrl env size currencyPair) = Except.ok resp) :
    (∀ code msg, Map.get resp "code" = some code → JObj.index resp "msg" = JSON.str msg →
        GetDepth env size currencyPair = some (none, some msg))
      ∧ (Map.get resp "code" = none →
          ∀ depth err, GetDepth env size currencyPair ≠ some (depth, some err)) := by
  have hrun : GetDepth env size currencyPair = depthOfResp env resp := by
    simp only [GetDepth, hhttp]
  rw [hrun]
  refine ⟨?_, ?_⟩
  · intro code msg hcode hmsg
    simp [depthOfResp, hcode, hmsg, JSON.asString]
  · intro hcode depth err
    simp only [depthOfResp, hcode, Option.isSome_none, Bool.false_eq_true, if_false]
    split
    · simp
    · split
      · simp
      · split
        · simp
        · split <;> simp

/-- C5, witness: the error envelope `{"code":-1000,"msg":"Invalid symbol."}`,
here together with `bids` and `asks`. -/
theorem GetDepth_error_envelope_witness :
    GetDepth
        (sampleEnv 1500000000000000000
          (Except.ok [("code", JSON.num (Float64.finite (-1000))),
            ("msg", JSON.str "Invalid symbol."), ("bids", JSON.arr []), ("asks", JSON.arr [])])
          (Except.error "") (Except.error ""))
        5 ("BTC", "USDT")
      = some (none, some "Invalid symbol.") :=
  (GetDepth_error_envelope
    (sampleEnv 1500000000000000000
      (Except.ok [("code", JSON.num (Float64.finite (-1000))),
        ("msg", JSON.str "Invalid symbol."), ("bids", JSON.arr []), ("asks", JSON.arr [])])
      (Except.error "") (Except.error ""))
    5 ("BTC", "USDT") _ rfl).1 (JSON.num (Float64.finite (-1000))) "Invalid symbol." rfl rfl

/-- C6, amended: for a decoded ticker response in which `closeTime` is a number
and the six price fields are strings of which at least one is not a number
(`strconv.ParseFloat` reports an error for it), `GetTicker` still returns a
ticker and no error: the error of the parse is discarded and the field holds
the value that `strconv.ParseFloat` returned with it. -/
theorem GetTicker_discards_parse_errors {CurrencyPair Currency : Type}
    (env : Env CurrencyPair Currency) (currency : CurrencyPair) (tickerMap : JObj)
    (closeTime : Float64) (lastPrice bidPrice askPrice lowPrice highPrice volume : String)
    (hhttp : env.HttpGet (API_V1 ++ TICKER_URI (env.ToSymbol currency "")) = Except.ok tickerMap)
    (hclose : Map.get tickerMap "closeTime" = some (JSON.num closeTime))
    (hlast : Map.get tickerMap "lastPrice" = some (JSON.str lastPrice))
    (hbid : Map.get tickerMap "bidPrice" = some (JSON.str bidPrice))
    (hask : Map.get tickerMap "askPrice" = some (JSON.str askPrice))
    (hlow : Map.get tickerMap "lowPrice" = some (JSON.str lowPrice))
    (hhigh : Map.get tickerMap "highPrice" = some (JSON.str highPrice))
    (hvol : Map.get tickerMap "volume" = some (JSON.str volume))
    (_hbad : ∃ s ∈ [lastPrice, bidPrice, askPrice, lowPrice, highPrice, volume],
      (env.ParseFloat s 10).2 ≠ none) :
    GetTicker env currency
      = some (some
          { Date := Float64.toUint64 env.uint64Impl closeTime
            Last := (env.ParseFloat lastPrice 10).1
            Buy := (env.ParseFloat bidPrice 10).1
            Sell := (env.ParseFloat askPrice 10).1
            Low := (env.ParseFloat lowPrice 10).1
            High := (env.ParseFloat highPrice 10).1
            Vol := (env.ParseFloat volume 10).1 }, none) := by
  simp only [GetTicker, hhttp, tickerOfMap_eq env tickerMap closeTime lastPrice bidPrice askPrice
    lowPrice highPrice volume hclose hlast hbid hask hlow hhigh hvol]

/-- C6, witness: a ticker response whose `lastPrice` is the text `abc`. -/
theorem GetTicker_discards_parse_errors_witness :
    (sampleParseFloat "abc" 10).2 ≠ none
    ∧ GetTicker
        (sampleEnv 1500000000000000000
          (Except.ok [("closeTime", JSON.num (Float64.finite 1620000000000)),
            ("lastPrice", JSON.str "abc"), ("bidPrice", JSON.str "100.5"),
            ("askPrice", JSON.str "101.0"), ("lowPrice", JSON.str "99"),
            ("highPrice", JSON.str "102"), ("volume", JSON.str "10")])
          (Except.error "") (Except.error ""))
        ("BTC", "USDT")
      = some (some
          { Date := Float64.toUint64 (fun _ => 9223372036854775808) (Float64.finite 1620000000000)
            Last := (sampleParseFloat "abc" 10).1
            Buy := (sampleParseFloat "100.5" 10).1
            Sell := (sampleParseFloat "101.0" 10).1
            Low := (sampleParseFloat "99" 10).1
            High := (sampleParseFloat "102" 10).1
            Vol := (sampleParseFloat "10" 10).1 }, none) :=
  ⟨by decide,
    GetTicker_discards_parse_errors
      (sampleEnv 1500000000000000000
        (Except.ok [("closeTime", JSON.num (Float64.finite 1620000000000)),
          ("lastPrice", JSON.str "abc"), ("bidPrice", JSON.str "100.5"),
          ("askPrice", JSON.str "101.0"), ("lowPrice", JSON.str "99"),
          ("highPrice", JSON.str "102"), ("volume", JSON.str "10")])
        (Except.error "") (Except.error ""))
      ("BTC", "USDT") _ (Float64.finite 1620000000000) "abc" "100.5" "101.0" "99" "102" "10"
      rfl rfl rfl rfl rfl rfl rfl rfl ⟨"abc", by simp, by decide⟩⟩

/-- C6, counterexample: the decoded response holds `lastPrice = "abc"`, which
is not a number, and `GetTicker` returns a ticker with `Last = 0` and a nil
error instead of failing. -/
theorem GetTicker_counterexample :
    (sampleParseFloat "abc" 10).2 ≠ none
    ∧ GetTicker
        (sampleEnv 1500000000000000000
          (Except.ok [("closeTime", JSON.num (Float64.finite 1620000000000)),
            ("lastPrice", JSON.str "abc"), ("bidPrice", JSON.str "100.5"),
            ("askPrice", JSON.str "101.0"), ("lowPrice", JSON.str "99"),
            ("highPrice", JSON.str "102"), ("volume", JSON.str "10")])
          (Except.error "") (Except.error ""))
        ("BTC", "USDT")
      = some (some
          { Date := 1620000000000
            Last := Float64.finite 0
            Buy := Float64.finite (mkRat 201 2)
            Sell := Float64.finite 101
            Low := Float64.finite 99
            High := Float64.finite 102
            Vol := Float64.finite 10 }, none) := by
  decide

/-- C7, the code at `MarketBuy` and `MarketSell`: the form that `placeOrder`
builds holds `symbol`, `side`, `quantity`, `timeInForce = "GTC"`, and `price`
exactly for the order type `LIMIT`, but its `type` is `LIMIT` whatever order
type was requested, so a market order is signed and sent with `type = "LIMIT"`
and no price. -/
theorem placeOrder_type_is_always_LIMIT {CurrencyPair Currency : Type}
    (env : Env CurrencyPair Currency) (ba : Binance) (amount price : String)
    (pair : CurrencyPair) (orderType orderSide : String) :
    (∀ k, Map.get (placeOrderParams env amount price pair orderType orderSide) k
        = if k = "symbol" then some [env.ToSymbol pair ""]
          else if k = "side" then some [orderSide]
          else if k = "type" then some ["LIMIT"]
          else if k = "quantity" then some [amount]
          else if k = "timeInForce" then some ["GTC"]
          else if k = "price" then (if orderType = "LIMIT" then some [price] else none)
          else none)
      ∧ MarketBuy env ba amount price pair = placeOrder env ba amount price pair "MARKET" "BUY"
      ∧ MarketSell env ba amount price pair = placeOrder env ba amount price pair "MARKET" "SELL"
      ∧ Map.get (placeOrderParams env amount price pair "MARKET" orderSide) "type"
          = some ["LIMIT"]
      ∧ Map.get (placeOrderParams env amount price pair "MARKET" orderSide) "price" = none
      ∧ (∀ params,
          buildPostForm env ba (placeOrderParams env amount price pair "MARKET" orderSide)
            = some params →
          Map.get params "type" = some ["LIMIT"])
      ∧ placeOrderParams (sampleEnv 0 (Except.error "") (Except.error "") (Except.error ""))
          "1" "0" ("BTC", "USDT") "MARKET" "BUY"
        = [("timeInForce", ["GTC"]), ("type", ["LIMIT"]), ("quantity", ["1"]),
            ("side", ["BUY"]), ("symbol", ["BTCUSDT"])] := by
  have hall : ∀ (ty : String) (k : String),
      Map.get (placeOrderParams env amount price pair ty orderSide) k
        = if k = "symbol" then some [env.ToSymbol pair ""]
          else if k = "side" then some [orderSide]
          else if k = "type" then some ["LIMIT"]
          else if k = "quantity" then some [amount]
          else if k = "timeInForce" then some ["GTC"]
          else if k = "price" then (if ty = "LIMIT" then some [price] else none)
          else none := by
    intro ty k
    by_cases hty : ty = "LIMIT"
    · simp only [placeOrderParams, Values.Set, hty, if_true, Map.get_set, Map.get]
      split_ifs <;> first | rfl | simp_all
    · simp only [placeOrderParams, Values.Set, hty, if_false, Map.get_set, Map.get]
      split_ifs <;> first | rfl | simp_all
  refine ⟨hall orderType, rfl, rfl, ?_, ?_, ?_, by decide⟩
  · rw [hall]; simp
  · rw [hall]; simp
  · intro params hparams
    cases hts : tonce env.UnixNano with
    | none => simp [buildPostForm, hts] at hparams
    | some ts =>
      rw [buildPostForm_eq env ba _ ts hts] at hparams
      rw [← Option.some.inj hparams, Values.Set, Map.get_set_ne _ _ _ _ (by decide), Values.Set,
        Map.get_set_ne _ _ _ _ (by decide), Values.Set, Map.get_set_ne _ _ _ _ (by decide), hall]
      simp

/-- C8, amended: for a well-formed decoded ticker response, `closeTime` a whole
number from 0 to `2^64 - 1` and `lastPrice`, `bidPrice`, `askPrice`,
`lowPrice`, `highPrice`, `volume` numeric strings, `GetTicker` succeeds with
`Date = closeTime` and with `Last`, `Buy`, `Sell`, `Low`, `High`, `Vol` the
values that `strconv.ParseFloat` gives for `lastPrice`, `bidPrice`, `askPrice`,
`lowPrice`, `highPrice`, `volume`. -/
theorem GetTicker_well_formed {CurrencyPair Currency : Type}
    (env : Env CurrencyPair Currency) (currency : CurrencyPair) (tickerMap : JObj)
    (closeTime : Nat) (lastPrice bidPrice askPrice lowPrice highPrice volume : String)
    (hhttp : env.HttpGet (API_V1 ++ TICKER_URI (env.ToSymbol currency "")) = Except.ok tickerMap)
    (hrange : closeTime < 2 ^ 64)
    (hclose : Map.get tickerMap "closeTime" = some (JSON.num (Float64.finite (closeTime : ℚ))))
    (hlast : Map.get tickerMap "lastPrice" = some (JSON.str lastPrice))
    (hbid : Map.get tickerMap "bidPrice" = some (JSON.str bidPrice))
    (hask : Map.get tickerMap "askPrice" = some (JSON.str askPrice))
    (hlow : Map.get tickerMap "lowPrice" = some (JSON.str lowPrice))
    (hhigh : Map.get tickerMap "highPrice" = some (JSON.str highPrice))
    (hvol : Map.get tickerMap "volume" = some (JSON.str volume))
    (_hnumeric : ∀ s ∈ [lastPrice, bidPrice, askPrice, lowPrice, highPrice, volume],
      (env.ParseFloat s 10).2 = none) :
    GetTicker env currency
      = some (some
          { Date := closeTime
            Last := (env.ParseFloat lastPrice 10).1
            Buy := (env.ParseFloat bidPrice 10).1
            Sell := (env.ParseFloat askPrice 10).1
            Low := (env.ParseFloat lowPrice 10).1
            High := (env.ParseFloat highPrice 10).1
            Vol := (env.ParseFloat volume 10).1 }, none) := by
  simp only [GetTicker, hhttp, tickerOfMap_eq env tickerMap _ lastPrice bidPrice askPrice
    lowPrice highPrice volume hclose hlast hbid hask hlow hhigh hvol,
    Float64.toUint64_natCast env.uint64Impl closeTime (by simpa using hrange)]

/-- C8, witness: the response
`{"bidPrice":"100.5","askPrice":"101.0","lastPrice":"100.8","lowPrice":"99",
"highPrice":"102","volume":"10","closeTime":1620000000000}`
gives `Buy = 100.5`, `Sell = 101.0` and `Last` the `float64` of `100.8`. -/
theorem GetTicker_well_formed_witness :
    GetTicker
        (sampleEnv 1500000000000000000
          (Except.ok [("bidPrice", JSON.str "100.5"), ("askPrice", JSON.str "101.0"),
            ("lastPrice", JSON.str "100.8"), ("lowPrice", JSON.str "99"),
            ("highPrice", JSON.str "102"), ("volume", JSON.str "10"),
            ("closeTime", JSON.num (Float64.finite ((1620000000000 : Nat) : ℚ)))])
          (Except.error "") (Except.error ""))
        ("BTC", "USDT")
      = some (some
          { Date := 1620000000000
            Last := (sampleParseFloat "100.8" 10).1
            Buy := (sampleParseFloat "100.5" 10).1
            Sell := (sampleParseFloat "101.0" 10).1
            Low := (sampleParseFloat "99" 10).1
            High := (sampleParseFloat "102" 10).1
            Vol := (sampleParseFloat "10" 10).1 }, none)
    ∧ (sampleParseFloat "100.5" 10).1 = Float64.finite (mkRat 201 2)
    ∧ (sampleParseFloat "101.0" 10).1 = Float64.finite 101
    ∧ (sampleParseFloat "100.8" 10).1
        = Float64.finite (mkRat 7093169413108531 70368744177664) :=
  ⟨GetTicker_well_formed
      (sampleEnv 1500000000000000000
        (Except.ok [("bidPrice", JSON.str "100.5"), ("askPrice", JSON.str "101.0"),
          ("lastPrice", JSON.str "100.8"), ("lowPrice", JSON.str "99"),
          ("highPrice", JSON.str "102"), ("volume", JSON.str "10"),
          ("closeTime", JSON.num (Float64.finite ((1620000000000 : Nat) : ℚ)))])
        (Except.error "") (Except.error ""))
      ("BTC", "USDT") _ 1620000000000 "100.8" "100.5" "101.0" "99" "102" "10"
      rfl (by norm_num) rfl rfl rfl rfl rfl rfl rfl (by decide),
    by decide, by decide, by decide⟩

/-- C8, counterexample: with `closeTime = 1.5` and all price fields numeric
strings `GetTicker` succeeds with `Date = 1`, which is not `closeTime`; with
`closeTime = -1` it succeeds with a `Date` that, being unsigned, is not
`closeTime` either. -/
theorem GetTicker_Date_counterexample :
    (∃ t, GetTicker
        (sampleEnv 1500000000000000000
          (Except.ok [("closeTime", JSON.num (Float64.finite (mkRat 3 2))),
            ("lastPrice", JSON.str "100.8"), ("bidPrice", JSON.str "100.5"),
            ("askPrice", JSON.str "101.0"), ("lowPrice", JSON.str "99"),
            ("highPrice", JSON.str "102"), ("volume", JSON.str "10")])
          (Except.error "") (Except.error ""))
        ("BTC", "USDT") = some (some t, none)
      ∧ t.Date = 1 ∧ Float64.finite (mkRat t.Date 1) ≠ Float64.finite (mkRat 3 2))
    ∧ (∃ t, GetTicker
        (sampleEnv 1500000000000000000
          (Except.ok [("closeTime", JSON.num (Float64.finite (-1))),
            ("lastPrice", JSON.str "100.8"), ("bidPrice", JSON.str "100.5"),
            ("askPrice", JSON.str "101.0"), ("lowPrice", JSON.str "99"),
            ("highPrice", JSON.str "102"), ("volume", JSON.str "10")])
          (Except.error "") (Except.error ""))
        ("BTC", "USDT") = some (some t, none)
      ∧ Float64.finite (mkRat t.Date 1) ≠ Float64.finite (-1)) := by
  refine ⟨⟨_, rfl, ?_, ?_⟩, ⟨_, rfl, ?_⟩⟩ <;> decide

/-- C9: for a clock reading of 19 digits, `10^18 ≤ n < 10^19` nanoseconds, the
timestamp that `buildPostForm` sets, the first 13 characters of the decimal
rendering of `n`, has exactly 13 characters, all decimal digits, and is the
decimal rendering of `n / 10^6`, the time in milliseconds. -/
theorem timestamp_is_unix_millis {CurrencyPair Currency : Type}
    (env : Env CurrencyPair Currency) (ba : Binance) (postForm : Values)
    (h1 : 10 ^ 18 ≤ env.UnixNano) (h2 : env.UnixNano < 10 ^ 19) :
    tonce env.UnixNano = some (FormatInt (env.UnixNano / 10 ^ 6))
      ∧ (FormatInt (env.UnixNano / 10 ^ 6)).data.length = 13
      ∧ (∀ c ∈ (FormatInt (env.UnixNano / 10 ^ 6)).data, c.isDigit = true)
      ∧ ∃ form, buildPostForm env ba postForm = some form
          ∧ Map.get form "timestamp" = some [FormatInt (env.UnixNano / 10 ^ 6)] := by
  obtain ⟨m, hm⟩ := Int.eq_ofNat_of_zero_le (le_trans (by norm_num) h1 : (0 : Int) ≤ env.UnixNano)
  have hm1 : 10 ^ 18 ≤ m := by
    have : ((10 ^ 18 : Nat) : Int) ≤ (m : Int) := by rw [← hm]; exact_mod_cast h1
    exact_mod_cast this
  have hm2 : m < 10 ^ 19 := by
    have : (m : Int) < ((10 ^ 19 : Nat) : Int) := by rw [← hm]; exact_mod_cast h2
    exact_mod_cast this
  have hdiv : env.UnixNano / 10 ^ 6 = ((m / 1000000 : Nat) : Int) := by
    rw [hm]; norm_cast
  have hfmt : FormatInt (env.UnixNano / 10 ^ 6) = FormatNat (m / 1000000) := by
    rw [hdiv]; rfl
  obtain ⟨ht, hlen⟩ := tonce_nat m hm1 hm2
  have hts : tonce env.UnixNano = some (FormatInt (env.UnixNano / 10 ^ 6)) := by
    rw [hfmt, hm]; exact ht
  refine ⟨hts, ?_, ?_, ?_⟩
  · rw [hfmt]; exact hlen
  · rw [hfmt]; exact decDigits_isDigit _ _
  · refine ⟨_, buildPostForm_eq env ba postForm _ hts, ?_⟩
    rw [Values.Set, Map.get_set_ne _ _ _ _ (by decide), Values.Set, Map.get_set_same]

/-- C9, witness: the clock reading 1620000000123456789. -/
theorem timestamp_is_unix_millis_witness :
    (10 : Int) ^ 18 ≤ 1620000000123456789 ∧ (1620000000123456789 : Int) < 10 ^ 19
      ∧ tonce 1620000000123456789 = some (FormatInt (1620000000123456789 / 10 ^ 6))
      ∧ FormatInt (1620000000123456789 / 10 ^ 6) = "1620000000123" :=
  ⟨by norm_num, by norm_num,
    (timestamp_is_unix_millis
      (sampleEnv 1620000000123456789 (Except.error "") (Except.error "") (Except.error ""))
      sampleClient [] (by norm_num [sampleEnv]) (by norm_num [sampleEnv])).1,
    by decide⟩

/-- C10: when every entry of the open-orders response is an object with a
string `type`, `GetUnfinishOrders` returns one order per entry, in the order of
the entries, each with status `ORDER_UNFINISH` and with side `BUY` exactly when
the `type` of its entry is `BUY`, and `SELL` otherwise; entries that differ
from those of the response in their `side` fields only give the same orders. -/
theorem GetUnfinishOrders_side_from_type {CurrencyPair Currency : Type}
    (env : Env CurrencyPair Currency) (ba : Binance) (currencyPair : CurrencyPair)
    (params : Values) (respmap : JObj)
    (hsign : buildPostForm env ba (unfinishOrdersParams env currencyPair) = some params)
    (hhttp : env.HttpGet2 (API_V3 ++ UNFINISHED_ORDERS_INFO) params
      [("X-MBX-APIKEY", ba.accessKey)] = Except.ok respmap)
    (hwf : ∀ kv ∈ Map.entries respmap,
      ∃ ord ty, kv.2 = JSON.obj ord ∧ Map.get ord "type" = some (JSON.str ty)) :
    ∃ orders,
      GetUnfinishOrders env ba currencyPair = some (orders, none)
      ∧ orders.length = (Map.entries respmap).length
      ∧ List.Forall₂
          (fun kv o =>
            o.Status = TradeStatus.ORDER_UNFINISH
            ∧ ∃ ord ty, kv.2 = JSON.obj ord ∧ Map.get ord "type" = some (JSON.str ty)
              ∧ (o.Side = TradeSide.BUY ↔ ty = "BUY")
              ∧ (o.Side = TradeSide.SELL ↔ ty ≠ "BUY"))
          (Map.entries respmap) orders
      ∧ (∀ entries',
          List.Forall₂
            (fun kv kv' => ∃ ord ord', kv.2 = JSON.obj ord ∧ kv'.2 = JSON.obj ord'
              ∧ ∀ k, k ≠ "side" → Map.get ord k = Map.get ord' k)
            (Map.entries respmap) entries' →
          unfinishOrders env currencyPair entries' = some orders) := by
  have hloop : ∀ entries : List (String × JSON),
      (∀ kv ∈ entries, ∃ ord ty, kv.2 = JSON.obj ord ∧ Map.get ord "type" = some (JSON.str ty)) →
      ∃ orders, unfinishOrders env currencyPair entries = some orders
        ∧ List.Forall₂
          (fun kv o =>
            o.Status = TradeStatus.ORDER_UNFINISH
            ∧ ∃ ord ty, kv.2 = JSON.obj ord ∧ Map.get ord "type" = some (JSON.str ty)
              ∧ (o.Side = TradeSide.BUY ↔ ty = "BUY")
              ∧ (o.Side = TradeSide.SELL ↔ ty ≠ "BUY"))
          entries orders
        ∧ (∀ entries',
          List.Forall₂
            (fun kv kv' => ∃ ord ord', kv.2 = JSON.obj ord ∧ kv'.2 = JSON.obj ord'
              ∧ ∀ k, k ≠ "side" → Map.get ord k = Map.get ord' k)
            entries entries' →
          unfinishOrders env currencyPair entries' = some orders) := by
    intro entries
    induction entries with
    | nil =>
      intro _
      refine ⟨[], rfl, List.Forall₂.nil, ?_⟩
      intro entries' h
      cases h
      rfl
    | cons kv rest ih =>
      intro hwf
      obtain ⟨ord, ty, hkv, hty⟩ := hwf kv (List.mem_cons_self _ _)
      obtain ⟨orders, hrest, hall, hside⟩ := ih (fun kv' h => hwf kv' (List.mem_cons_of_mem _ h))
      obtain ⟨key, v⟩ := kv
      simp only at hkv
      subst hkv
      obtain ⟨o, ho, hstatus, hoside⟩ : ∃ o : Order CurrencyPair,
          unfinishOrder env currencyPair (JSON.obj ord) = some o
          ∧ o.Status = TradeStatus.ORDER_UNFINISH
          ∧ o.Side = (if ty = "BUY" then TradeSide.BUY else TradeSide.SELL) :=
        ⟨_, unfinishOrder_eq env currencyPair ord ty hty, rfl, rfl⟩
      refine ⟨o :: orders, ?_, List.Forall₂.cons ⟨hstatus, ord, ty, rfl, hty, ?_, ?_⟩ hall, ?_⟩
      · simp only [unfinishOrders, ho, hrest]
      · by_cases h : ty = "BUY" <;> simp [hoside, h]
      · by_cases h : ty = "BUY" <;> simp [hoside, h]
      · intro entries' h
        cases h with
        | cons hhead htail =>
          obtain ⟨ord₁, ord₂, h1, h2, hagree⟩ := hhead
          rename_i kv' rest'
          obtain ⟨key', v'⟩ := kv'
          simp only at h1 h2
          subst h2
          have h1' := JSON.obj.inj h1
          subst h1'
          simp only [unfinishOrders, ← unfinishOrder_side_irrelevant env currencyPair ord ord₂ hagree,
            ho, hside _ htail]
  obtain ⟨orders, hrun, hall, hside⟩ := hloop (Map.entries respmap) hwf
  refine ⟨orders, ?_, hall.length_eq.symm, hall, hside⟩
  simp only [GetUnfinishOrders, hsign, hhttp, hrun]

set_option maxRecDepth 1000000 in
/-- C10, witness: an entry with `type = "BUY"` and `side = "SELL"` gives a buy
order, an entry with `type = "LIMIT"` and `side = "BUY"` gives a sell order. -/
theorem GetUnfinishOrders_side_from_type_witness :
    ∃ orders,
      GetUnfinishOrders
        (sampleEnv 1500000000000000000
          (Except.ok [("first", JSON.obj [("orderId", JSON.num (Float64.finite 7)), ("type", JSON.str "BUY"),
              ("side", JSON.str "SELL"), ("price", JSON.str "100.5"),
              ("origQty", JSON.str "2")]),
            ("second", JSON.obj [("orderId", JSON.num (Float64.finite 8)),
              ("type", JSON.str "LIMIT"), ("side", JSON.str "BUY"), ("price", JSON.str "99"),
              ("origQty", JSON.str "1")])])
          (Except.error "") (Except.error ""))
        sampleClient ("BTC", "USDT") = some (orders, none)
      ∧ orders.length = 2
      ∧ orders.map (fun o => o.Side) = [TradeSide.BUY, TradeSide.SELL] :=
  match GetUnfinishOrders_side_from_type
      (sampleEnv 1500000000000000000
          (Except.ok [("first", JSON.obj [("orderId", JSON.num (Float64.finite 7)), ("type", JSON.str "BUY"),
              ("side", JSON.str "SELL"), ("price", JSON.str "100.5"),
              ("origQty", JSON.str "2")]),
            ("second", JSON.obj [("orderId", JSON.num (Float64.finite 8)),
              ("type", JSON.str "LIMIT"), ("side", JSON.str "BUY"), ("price", JSON.str "99"),
              ("origQty", JSON.str "1")])])
          (Except.error "") (Except.error ""))
      sampleClient ("BTC", "USDT")
      [("signature", ["560892b74671c25749e4e69311fbdcc404ee9afcc32aa8460cbb808facc8ca29"]),
        ("timestamp", ["1500000000000"]), ("recvWindow", ["6000000"]),
        ("symbol", ["BTCUSDT"])]
      _ (by decide) rfl
      (by
        intro kv hkv
        have hentries : Map.entries ([("first", JSON.obj [("orderId", JSON.num (Float64.finite 7)), ("type", JSON.str "BUY"),
              ("side", JSON.str "SELL"), ("price", JSON.str "100.5"),
              ("origQty", JSON.str "2")]),
            ("second", JSON.obj [("orderId", JSON.num (Float64.finite 8)),
              ("type", JSON.str "LIMIT"), ("side", JSON.str "BUY"), ("price", JSON.str "99"),
              ("origQty", JSON.str "1")])] : JObj)
            = [("first", JSON.obj [("orderId", JSON.num (Float64.finite 7)), ("type", JSON.str "BUY"),
              ("side", JSON.str "SELL"), ("price", JSON.str "100.5"),
              ("origQty", JSON.str "2")]),
            ("second", JSON.obj [("orderId", JSON.num (Float64.finite 8)),
              ("type", JSON.str "LIMIT"), ("side", JSON.str "BUY"), ("price", JSON.str "99"),
              ("origQty", JSON.str "1")])] := rfl
        rw [hentries] at hkv
        simp only [List.mem_cons, List.mem_singleton, List.not_mem_nil, or_false] at hkv
        rcases hkv with rfl | rfl
        · exact ⟨_, _, rfl, rfl⟩
        · exact ⟨_, _, rfl, rfl⟩) with
  | ⟨orders, hrun, hlen, _, _⟩ =>
    ⟨orders, hrun, hlen.trans (by decide), by
      have h := hrun
      have hval : GetUnfinishOrders
          (sampleEnv 1500000000000000000
          (Except.ok [("first", JSON.obj [("orderId", JSON.num (Float64.finite 7)), ("type", JSON.str "BUY"),
              ("side", JSON.str "SELL"), ("price", JSON.str "100.5"),
              ("origQty", JSON.str "2")]),
            ("second", JSON.obj [("orderId", JSON.num (Float64.finite 8)),
              ("type", JSON.str "LIMIT"), ("side", JSON.str "BUY"), ("price", JSON.str "99"),
              ("origQty", JSON.str "1")])])
          (Except.error "") (Except.error ""))
          sampleClient ("BTC", "USDT")
          = some (_, none) := rfl
      rw [hval] at h
      rw [← (Prod.mk.inj (Option.some.inj h)).1]
      decide⟩

end binance
